import Mathlib

/-!
Verification of the QR-watermarking core: the LSB steganographic bit codec
(`lsb_steganography.py`) and the document-binding protocol
(`document_security.py`, `secure_qr_utils.py`).

The Python modules are shallowly embedded:

* Images are flattened to row-major pixel lists.  A pixel is an RGB triple of
  `Nat` channel samples in `0..255`; the payload QR bitmap is given by its
  dimensions and a row-major predicate (`true` = dark module, which is pixel
  value `0` in PIL mode `'1'` and embeds as bit `'1'`).
* Byte strings are `List Nat` (each entry `< 256`); SHA-256, HMAC-SHA256,
  Base64 and UTF-8 are implemented concretely below so that fingerprints and
  binding tokens are computed exactly as the Python code computes them.
* Python `json` is embedded as the `Json` type with a serializer mirroring
  `json.dumps` (`ensure_ascii` escaping, configurable separators,
  `sort_keys`) and a fuel-indexed parser mirroring `json.loads`.
* Each `time.time()` observation is passed in as an explicit `Nat` parameter;
  file and image IO is modelled by passing contents directly.
-/

namespace StegoSpec

set_option maxRecDepth 16000
set_option maxHeartbeats 2000000

/-! ## Bytes and 32-bit words -/

/-- A byte sequence: each element is intended to lie in `0..255`. -/
abbrev Bytes := List Nat

/-- All elements of a byte sequence are genuine bytes. -/
def isBytes (bs : Bytes) : Bool := bs.all (fun b => b < 256)

/-- Truncation to a 32-bit word. -/
def w32 (n : Nat) : Nat := n % 4294967296

/-- Addition modulo `2^32`. -/
def add32 (a b : Nat) : Nat := w32 (a + b)

/-- Right rotation of a 32-bit word. -/
def rotr32 (n x : Nat) : Nat :=
  w32 ((x >>> n) ||| (x <<< (32 - n)))

/-- Logical right shift of a 32-bit word. -/
def shr32 (n x : Nat) : Nat := x >>> n

/-! ## SHA-256 (FIPS 180-4), over byte lists -/

/-- The 64 SHA-256 round constants. -/
def shaK : List Nat :=
  [1116352408, 1899447441, 3049323471, 3921009573, 961987163, 1508970993,
   2453635748, 2870763221, 3624381080, 310598401, 607225278, 1426881987,
   1925078388, 2162078206, 2614888103, 3248222580, 3835390401, 4022224774,
   264347078, 604807628, 770255983, 1249150122, 1555081692, 1996064986,
   2554220882, 2821834349, 2952996808, 3210313671, 3336571891, 3584528711,
   113926993, 338241895, 666307205, 773529912, 1294757372, 1396182291,
   1695183700, 1986661051, 2177026350, 2456956037, 2730485921, 2820302411,
   3259730800, 3345764771, 3516065817, 3600352804, 4094571909, 275423344,
   430227734, 506948616, 659060556, 883997877, 958139571, 1322822218,
   1537002063, 1747873779, 1955562222, 2024104815, 2227730452, 2361852424,
   2428436474, 2756734187, 3204031479, 3329325298]

/-- The SHA-256 initial hash state. -/
def shaH0 : List Nat :=
  [1779033703, 3144134277, 1013904242, 2773480762, 1359893119, 2600822924,
   528734635, 1541459225]

/-- Big-endian bytes of `n`, `k` bytes wide. -/
def beBytes (k n : Nat) : Bytes :=
  (List.range k).map (fun i => n >>> (8 * (k - 1 - i)) % 256)

/-- SHA-256 message padding: `0x80`, zeros, and the 64-bit bit length. -/
def shaPad (msg : Bytes) : Bytes :=
  let padLen := (55 + 64 - msg.length % 64) % 64 + 1
  msg ++ (128 :: List.replicate (padLen - 1) 0) ++ beBytes 8 (8 * msg.length)

/-- Split a list into chunks of `k` elements (`k > 0`; fuel-bounded). -/
def chunksOf (k : Nat) : Nat → List Nat → List (List Nat)
  | 0, _ => []
  | _, [] => []
  | fuel + 1, xs => xs.take k :: chunksOf k fuel (xs.drop k)

/-- Big-endian 32-bit words of a 64-byte block. -/
def blockWords (block : Bytes) : List Nat :=
  (chunksOf 4 block.length block).map (fun c => c.foldl (fun a b => a * 256 + b) 0)

/-- SHA-256 small sigma 0. -/
def ssig0 (x : Nat) : Nat := w32 ((rotr32 7 x) ^^^ (rotr32 18 x) ^^^ (shr32 3 x))

/-- SHA-256 small sigma 1. -/
def ssig1 (x : Nat) : Nat := w32 ((rotr32 17 x) ^^^ (rotr32 19 x) ^^^ (shr32 10 x))

/-- SHA-256 big sigma 0. -/
def bsig0 (x : Nat) : Nat := w32 ((rotr32 2 x) ^^^ (rotr32 13 x) ^^^ (rotr32 22 x))

/-- SHA-256 big sigma 1. -/
def bsig1 (x : Nat) : Nat := w32 ((rotr32 6 x) ^^^ (rotr32 11 x) ^^^ (rotr32 25 x))

/-- Extend the 16 block words to the 64-entry message schedule. -/
def shaSchedule (ws : List Nat) : Nat → List Nat
  | 0 => ws
  | fuel + 1 =>
    let ws' := shaSchedule ws fuel
    let i := ws'.length
    if i < 64 then
      ws' ++ [add32 (add32 (ssig1 (ws'.getD (i - 2) 0)) (ws'.getD (i - 7) 0))
                (add32 (ssig0 (ws'.getD (i - 15) 0)) (ws'.getD (i - 16) 0))]
    else ws'

/-- One SHA-256 round: update the eight working registers. -/
def shaRound (st : List Nat) (kw : Nat × Nat) : List Nat :=
  match st with
  | [a, b, c, d, e, f, g, h] =>
    let t1 := add32 h (add32 (bsig1 e)
      (add32 ((e &&& f) ^^^ ((4294967295 - e) &&& g)) (add32 kw.1 kw.2)))
    let t2 := add32 (bsig0 a) ((a &&& b) ^^^ ((a &&& c) ^^^ (b &&& c)))
    [add32 t1 t2, a, b, c, add32 d t1, e, f, g]
  | st => st

/-- SHA-256 compression of one 64-byte block into the hash state. -/
def shaCompress (st : List Nat) (block : Bytes) : List Nat :=
  let ws := shaSchedule (blockWords block) 48
  let st' := (shaK.zip ws).foldl shaRound st
  (st.zip st').map (fun p => add32 p.1 p.2)

/-- SHA-256 digest of a byte sequence, as 32 bytes. -/
def sha256 (msg : Bytes) : Bytes :=
  let padded := shaPad msg
  let st := (chunksOf 64 padded.length padded).foldl shaCompress shaH0
  st.flatMap (beBytes 4)

/-- Lowercase hex digit for `n < 16`. -/
def hexDigitChar (n : Nat) : Char :=
  if n < 10 then Char.ofNat (48 + n) else Char.ofNat (87 + n)

/-- Lowercase hex string of a byte sequence (Python `hexdigest`). -/
def bytesToHex (bs : Bytes) : String :=
  String.mk (bs.flatMap (fun b => [hexDigitChar (b / 16 % 16), hexDigitChar (b % 16)]))

/-- Hex SHA-256 digest, modelling `hashlib.sha256(..).hexdigest()`. -/
def sha256Hex (msg : Bytes) : String := bytesToHex (sha256 msg)

/-! ## HMAC-SHA256 (RFC 2104), modelling `hmac.new(key, msg, hashlib.sha256)` -/

/-- HMAC-SHA256 digest (32 bytes). -/
def hmacSha256 (key msg : Bytes) : Bytes :=
  let key1 := if key.length > 64 then sha256 key else key
  let key2 := key1 ++ List.replicate (64 - key1.length) 0
  let ipad := key2.map (fun b => b ^^^ 54)
  let opad := key2.map (fun b => b ^^^ 92)
  sha256 (opad ++ sha256 (ipad ++ msg))

/-! ## UTF-8, modelling `str.encode("utf-8")` / `bytes.decode("utf-8")` -/

/-- UTF-8 encoding of one character. -/
def utf8EncodeChar (c : Char) : Bytes :=
  let n := c.toNat
  if n < 128 then [n]
  else if n < 2048 then [192 + n / 64, 128 + n % 64]
  else if n < 65536 then [224 + n / 4096, 128 + n / 64 % 64, 128 + n % 64]
  else [240 + n / 262144, 128 + n / 4096 % 64, 128 + n / 64 % 64, 128 + n % 64]

/-- UTF-8 encoding of a string. -/
def utf8Encode (s : String) : Bytes := s.data.flatMap utf8EncodeChar

/-- Whether `n` is a UTF-8 continuation byte. -/
def isCont (n : Nat) : Bool := 128 ≤ n && n < 192

/-- UTF-8 decoding, collecting characters; fails on malformed sequences
    (Python raises `UnicodeDecodeError` there). -/
def utf8DecodeAux : Nat → List Char → Bytes → Option (List Char)
  | 0, _, _ => none
  | _ + 1, acc, [] => some acc.reverse
  | fuel + 1, acc, b :: bs =>
    if b < 128 then utf8DecodeAux fuel (Char.ofNat b :: acc) bs
    else if 194 ≤ b && b < 224 then
      match bs with
      | b1 :: bs' =>
        if isCont b1 then
          utf8DecodeAux fuel (Char.ofNat ((b - 192) * 64 + (b1 - 128)) :: acc) bs'
        else none
      | _ => none
    else if 224 ≤ b && b < 240 then
      match bs with
      | b1 :: b2 :: bs' =>
        let n := (b - 224) * 4096 + (b1 - 128) * 64 + (b2 - 128)
        if isCont b1 && isCont b2 && 2048 ≤ n && ¬ (55296 ≤ n && n < 57344) then
          utf8DecodeAux fuel (Char.ofNat n :: acc) bs'
        else none
      | _ => none
    else if 240 ≤ b && b < 245 then
      match bs with
      | b1 :: b2 :: b3 :: bs' =>
        let n := (b - 240) * 262144 + (b1 - 128) * 4096 + (b2 - 128) * 64 + (b3 - 128)
        if isCont b1 && isCont b2 && isCont b3 && 65536 ≤ n && n < 1114112 then
          utf8DecodeAux fuel (Char.ofNat n :: acc) bs'
        else none
      | _ => none
    else none

/-- UTF-8 decoding of a byte sequence to a string. -/
def utf8Decode (bs : Bytes) : Option String :=
  (utf8DecodeAux (bs.length + 1) [] bs).map String.mk

/-! ## Base64 (RFC 4648 standard alphabet), modelling `base64.b64encode` and
`base64.b64decode` with `validate=False` (non-alphabet characters are
discarded before the padding check; bad padding is an error). -/

/-- The Base64 digit for `n < 64`. -/
def b64Char (n : Nat) : Char :=
  if n < 26 then Char.ofNat (65 + n)
  else if n < 52 then Char.ofNat (97 + (n - 26))
  else if n < 62 then Char.ofNat (48 + (n - 52))
  else if n = 62 then '+' else '/'

/-- The value of a Base64 digit, if it is one. -/
def b64Val (c : Char) : Option Nat :=
  if 'A' ≤ c && c ≤ 'Z' then some (c.toNat - 65)
  else if 'a' ≤ c && c ≤ 'z' then some (c.toNat - 97 + 26)
  else if '0' ≤ c && c ≤ '9' then some (c.toNat - 48 + 52)
  else if c = '+' then some 62
  else if c = '/' then some 63
  else none

/-- Base64 encoding of a byte sequence. -/
def b64encode : Bytes → List Char
  | b0 :: b1 :: b2 :: bs =>
    let n := b0 * 65536 + b1 * 256 + b2
    b64Char (n / 262144) :: b64Char (n / 4096 % 64) :: b64Char (n / 64 % 64) ::
      b64Char (n % 64) :: b64encode bs
  | [b0, b1] =>
    let n := b0 * 1024 + b1 * 4
    [b64Char (n / 4096), b64Char (n / 64 % 64), b64Char (n % 64), '=']
  | [b0] =>
    let n := b0 * 16
    [b64Char (n / 64), b64Char (n % 64), '=', '=']
  | [] => []

/-- Base64 encoding as an ASCII string, modelling
    `base64.b64encode(bs).decode("ascii")`. -/
def b64encodeStr (bs : Bytes) : String := String.mk (b64encode bs)

/-- Decode a run of full Base64 groups; the final group may carry `=` padding.
    A stray `=` elsewhere is an error. -/
def b64decodeGroups : Nat → List Char → Option Bytes
  | 0, _ => none
  | _ + 1, [] => some []
  | fuel + 1, c0 :: c1 :: c2 :: c3 :: cs =>
    match b64Val c0, b64Val c1 with
    | some v0, some v1 =>
      if c2 = '=' then
        if c3 = '=' && cs = [] then some [v0 * 4 + v1 / 16] else none
      else
        match b64Val c2 with
        | some v2 =>
          if c3 = '=' then
            if cs = [] then some [v0 * 4 + v1 / 16, v1 % 16 * 16 + v2 / 4] else none
          else
            match b64Val c3 with
            | some v3 =>
              (b64decodeGroups fuel cs).map
                (fun rest => (v0 * 4 + v1 / 16) :: (v1 % 16 * 16 + v2 / 4) ::
                  (v2 % 4 * 64 + v3) :: rest)
            | none => none
        | none => none
    | _, _ => none
  | _ + 1, _ => none

/-- Base64 decoding of a string: discard characters outside the alphabet
    (and `=`), then require a whole number of groups. `none` models the
    `binascii.Error` Python raises on incorrect padding. -/
def b64decode (s : String) : Option Bytes :=
  let cs := s.data.filter (fun c => (b64Val c).isSome || c = '=')
  if cs.length % 4 = 0 then b64decodeGroups (cs.length + 1) cs else none

/-! ## JSON values, modelling the Python `json` module

Numbers are kept as their raw source tokens (`Json.num "123"`), which both
`json.dumps` (for integers) and `json.loads` preserve verbatim; objects keep
member order (Python dicts preserve insertion order), and lookup takes the
last occurrence of a key, matching dict construction from duplicate keys. -/

inductive Json where
  | null
  | bool (b : Bool)
  | num (tok : String)
  | str (s : String)
  | arr (elems : List Json)
  | obj (members : List (String × Json))
deriving Repr

mutual

/-- Structural equality of JSON values. -/
def jeq : Json → Json → Bool
  | .null, .null => true
  | .bool a, .bool b => a == b
  | .num a, .num b => a == b
  | .str a, .str b => a == b
  | .arr xs, .arr ys => jeqList xs ys
  | .obj xs, .obj ys => jeqMembers xs ys
  | _, _ => false

/-- Body of `jeq` on element lists. -/
def jeqList : List Json → List Json → Bool
  | p :: ps, q :: qs => jeq p q && jeqList ps qs
  | [], [] => true
  | _, _ => false

/-- Body of `jeq` on member lists. -/
def jeqMembers : List (String × Json) → List (String × Json) → Bool
  | [], [] => true
  | (k, v) :: xs, (k', v') :: ys => k == k' && jeq v v' && jeqMembers xs ys
  | _, _ => false

end

mutual

theorem jeq_iff : ∀ a b : Json, jeq a b = true ↔ a = b
  | .null, b => by cases b <;> simp [jeq]
  | .bool a, b => by cases b <;> simp [jeq]
  | .num a, b => by cases b <;> simp [jeq]
  | .str a, b => by cases b <;> simp [jeq]
  | .arr xs, b => by
    cases b <;> simp [jeq]
    exact jeqList_iff xs _
  | .obj xs, b => by
    cases b <;> simp [jeq]
    exact jeqMembers_iff xs _

theorem jeqList_iff : ∀ xs ys : List Json, jeqList xs ys = true ↔ xs = ys
  | [], ys => by cases ys <;> simp [jeqList]
  | x :: xs, [] => by simp [jeqList]
  | x :: xs, y :: ys => by
    simp [jeqList, jeq_iff x y, jeqList_iff xs ys]

theorem jeqMembers_iff : ∀ xs ys : List (String × Json), jeqMembers xs ys = true ↔ xs = ys
  | [], ys => by cases ys <;> simp [jeqMembers]
  | (k, v) :: xs, [] => by simp [jeqMembers]
  | (k, v) :: xs, (k', v') :: ys => by
    simp [jeqMembers, jeq_iff v v', jeqMembers_iff xs ys, and_assoc]

end

instance : DecidableEq Json := fun a b => decidable_of_iff _ (jeq_iff a b)

instance : BEq Json := ⟨jeq⟩

/-- Decimal digit characters of `n` (most significant first), fuel-indexed
    so that the kernel can evaluate it. -/
def natDecAux : Nat → Nat → List Char
  | 0, _ => []
  | fuel + 1, n =>
    if n < 10 then [Char.ofNat (48 + n)]
    else natDecAux fuel (n / 10) ++ [Char.ofNat (48 + n % 10)]

/-- Decimal digits of a natural number. -/
def natDec (n : Nat) : List Char := natDecAux (n + 1) n

/-- Python's decimal rendering of an `int`. -/
def intDec (i : Int) : String :=
  if i < 0 then String.mk ('-' :: natDec i.natAbs) else String.mk (natDec i.natAbs)

/-- Integer-valued JSON number, as `json.dumps` writes an `int`. -/
def Json.int (n : Int) : Json := .num (intDec n)

/-- Last-wins lookup in an object's members, as a Python dict built from a
    JSON object literal behaves. `none` means the key is absent. -/
def Json.lookup (ms : List (String × Json)) (k : String) : Option Json :=
  (ms.reverse.find? (fun m => m.1 == k)).map (fun m => m.2)

/-- Python `dict.get(k)`: the value, or `None` (JSON null) when absent. -/
def Json.get (ms : List (String × Json)) (k : String) : Json :=
  (Json.lookup ms k).getD .null

/-! ### Serialization: `json.dumps(..., ensure_ascii=True)` -/

/-- A `\uXXXX` escape for `n < 0x10000`. -/
def uEscape (n : Nat) : List Char :=
  ['\\', 'u', hexDigitChar (n / 4096 % 16), hexDigitChar (n / 256 % 16),
   hexDigitChar (n / 16 % 16), hexDigitChar (n % 16)]

/-- JSON escaping of one character, exactly as Python's ASCII-only encoder:
    the two-character shorthands, `\u00XX` for other controls, printable
    ASCII verbatim, and `\uXXXX` (with surrogate pairs) for the rest. -/
def escChar (c : Char) : List Char :=
  if c = '"' then ['\\', '"']
  else if c = '\\' then ['\\', '\\']
  else if c = Char.ofNat 8 then ['\\', 'b']
  else if c = Char.ofNat 12 then ['\\', 'f']
  else if c = Char.ofNat 10 then ['\\', 'n']
  else if c = Char.ofNat 13 then ['\\', 'r']
  else if c = Char.ofNat 9 then ['\\', 't']
  else if 32 ≤ c.toNat && c.toNat < 127 then [c]
  else if c.toNat < 65536 then uEscape c.toNat
  else uEscape (55296 + (c.toNat - 65536) / 1024) ++ uEscape (56320 + (c.toNat - 65536) % 1024)

/-- A JSON string literal for `s`, quotes included. -/
def dumpStr (s : String) : List Char :=
  '"' :: (s.data.flatMap escChar ++ ['"'])

/-- Code-point lexicographic order on character lists — Python's `str`
    comparison, the order `sorted` uses for keys. -/
def strLtChars : List Char → List Char → Bool
  | [], [] => false
  | [], _ :: _ => true
  | _ :: _, [] => false
  | c :: cs, d :: ds =>
    if c.toNat < d.toNat then true
    else if d.toNat < c.toNat then false
    else strLtChars cs ds

/-- Python `a < b` on strings. -/
def pyStrLt (a b : String) : Bool := strLtChars a.data b.data

/-- Insert one member into a key-sorted member list. -/
def insertMember (m : String × Json) : List (String × Json) → List (String × Json)
  | [] => [m]
  | x :: xs => if pyStrLt m.1 x.1 then m :: x :: xs else x :: insertMember m xs

/-- Sort members by key (insertion sort, modelling `sorted`). -/
def sortMembers (ms : List (String × Json)) : List (String × Json) :=
  ms.foldr insertMember []

mutual

/-- Recursively sort every object's members by key: `json.dumps` with
    `sort_keys=True` is dumping the `keySorted` value without sorting. -/
def keySorted : Json → Json
  | .obj ms => .obj (sortMembers (keySortedMembers ms))
  | .arr es => .arr (keySortedList es)
  | v => v

/-- Body of `keySorted` on element lists. -/
def keySortedList : List Json → List Json
  | [] => []
  | e :: es => keySorted e :: keySortedList es

/-- Body of `keySorted` on member lists. -/
def keySortedMembers : List (String × Json) → List (String × Json)
  | [] => []
  | (k, v) :: ms => (k, keySorted v) :: keySortedMembers ms

end

mutual

/-- Serialize a JSON value with the given item and key separators
    (`json.dumps` defaults are `", "` and `": "`; the secure envelope uses
    the compact `","`/`":"`). -/
def dumpVal (isep ksep : List Char) : Json → List Char
  | .null => "null".data
  | .bool true => "true".data
  | .bool false => "false".data
  | .num tok => tok.data
  | .str s => dumpStr s
  | .arr es => '[' :: (dumpItems isep ksep es ++ [']'])
  | .obj ms => '{' :: (dumpMembers isep ksep ms ++ ['}'])

/-- Comma-separated serialized elements. -/
def dumpItems (isep ksep : List Char) : List Json → List Char
  | [] => []
  | [e] => dumpVal isep ksep e
  | e :: e' :: es => dumpVal isep ksep e ++ isep ++ dumpItems isep ksep (e' :: es)

/-- Comma-separated serialized `key: value` members. -/
def dumpMembers (isep ksep : List Char) : List (String × Json) → List Char
  | [] => []
  | [(k, v)] => dumpStr k ++ ksep ++ dumpVal isep ksep v
  | (k, v) :: m' :: ms =>
    dumpStr k ++ ksep ++ dumpVal isep ksep v ++ isep ++ dumpMembers isep ksep (m' :: ms)

end

/-- Model of `json.dumps(v, sort_keys=sortKeys)` with default separators. -/
def dumps (sortKeys : Bool) (v : Json) : String :=
  String.mk (dumpVal [',', ' '] [':', ' '] (if sortKeys then keySorted v else v))

/-- Model of `json.dumps(v, separators=(",", ":"))` (compact, unsorted). -/
def dumpsCompact (v : Json) : String :=
  String.mk (dumpVal [','] [':'] v)

/-! ### Parsing: `json.loads` -/

/-- JSON whitespace (only these four, per the `json` module). -/
def isJWs (c : Char) : Bool := c = ' ' || c = Char.ofNat 9 || c = Char.ofNat 10 || c = Char.ofNat 13

/-- Drop leading JSON whitespace. -/
def skipJWs : List Char → List Char
  | c :: cs => if isJWs c then skipJWs cs else c :: cs
  | [] => []

/-- Decimal digit test. -/
def isDig (c : Char) : Bool := '0' ≤ c && c ≤ '9'

/-- Split off a leading run of decimal digits. -/
def digitSpan : List Char → List Char × List Char
  | c :: cs =>
    if isDig c then
      let p := digitSpan cs
      (c :: p.1, p.2)
    else ([], c :: cs)
  | [] => ([], [])

/-- Hex digit value, either case. -/
def hexv (c : Char) : Option Nat :=
  if '0' ≤ c && c ≤ '9' then some (c.toNat - 48)
  else if 'a' ≤ c && c ≤ 'f' then some (c.toNat - 87)
  else if 'A' ≤ c && c ≤ 'F' then some (c.toNat - 55)
  else none

/-- Value of four hex digits. -/
def hexQuad (a b c d : Char) : Option Nat :=
  match hexv a, hexv b, hexv c, hexv d with
  | some va, some vb, some vc, some vd => some (va * 4096 + vb * 256 + vc * 16 + vd)
  | _, _, _, _ => none

/-- The single-character JSON escapes. -/
def escDecode (c : Char) : Option Char :=
  if c = '"' then some '"'
  else if c = '\\' then some '\\'
  else if c = '/' then some '/'
  else if c = 'b' then some (Char.ofNat 8)
  else if c = 'f' then some (Char.ofNat 12)
  else if c = 'n' then some (Char.ofNat 10)
  else if c = 'r' then some (Char.ofNat 13)
  else if c = 't' then some (Char.ofNat 9)
  else none

/-- Parse a string body after the opening quote, strict about raw control
    characters (as `json.loads` is).  A `\uXXXX` high surrogate combines
    with a following low surrogate escape; a lone surrogate (which Python
    would keep as an unpaired surrogate code unit, unrepresentable in
    `Char`) falls back through `Char.ofNat`. -/
def parseJStrAux (acc : List Char) : List Char → Option (String × List Char)
  | '"' :: rest => some (String.mk acc.reverse, rest)
  | '\\' :: 'u' :: a :: b :: c :: d :: rest =>
    (match hexQuad a b c d with
     | none => none
     | some n =>
       if 55296 ≤ n && n < 56320 then
         match rest with
         | '\\' :: 'u' :: a2 :: b2 :: c2 :: d2 :: rest2 =>
           (match hexQuad a2 b2 c2 d2 with
            | none => none
            | some m =>
              if 56320 ≤ m && m < 57344 then
                parseJStrAux (Char.ofNat (65536 + (n - 55296) * 1024 + (m - 56320)) :: acc) rest2
              else parseJStrAux (Char.ofNat m :: Char.ofNat n :: acc) rest2)
         | rest => parseJStrAux (Char.ofNat n :: acc) rest
       else parseJStrAux (Char.ofNat n :: acc) rest)
  | '\\' :: 'u' :: _ => none
  | '\\' :: e :: rest =>
    (match escDecode e with
     | some c => parseJStrAux (c :: acc) rest
     | none => none)
  | c :: rest => if c.toNat < 32 then none else parseJStrAux (c :: acc) rest
  | [] => none

/-- Parse a JSON string literal after its opening quote. -/
def parseJStr (cs : List Char) : Option (String × List Char) := parseJStrAux [] cs

/-- The optional exponent part of a number token: `e`/`E`, optional sign,
    one-or-more digits; empty when that shape is not present. -/
def expPart (r : List Char) : List Char × List Char :=
  match r with
  | c :: t =>
    if c = 'e' || c = 'E' then
      match t with
      | '+' :: d :: r3 =>
        if isDig d then
          let p := digitSpan r3
          (c :: '+' :: d :: p.1, p.2)
        else ([], r)
      | '-' :: d :: r3 =>
        if isDig d then
          let p := digitSpan r3
          (c :: '-' :: d :: p.1, p.2)
        else ([], r)
      | d :: r3 =>
        if isDig d then
          let p := digitSpan r3
          (c :: d :: p.1, p.2)
        else ([], r)
      | [] => ([], r)
    else ([], r)
  | [] => ([], r)

/-- Continue a number token after its integer part: optional fraction
    (`.` then one-or-more digits) and optional exponent. -/
def numTail (sgn intPart : List Char) (r : List Char) : String × List Char :=
  let frac : List Char × List Char := match r with
    | '.' :: d :: r2 =>
      if isDig d then
        let p := digitSpan r2
        ('.' :: d :: p.1, p.2)
      else ([], r)
    | _ => ([], r)
  let expo := expPart frac.2
  (String.mk (sgn ++ intPart ++ frac.1 ++ expo.1), expo.2)

/-- Parse a JSON number token (the `json` module's regex
    `-?(0|[1-9]\d*)(\.\d+)?([eE][+-]?\d+)?`), keeping the raw token. -/
def parseJNum (cs : List Char) : Option (String × List Char) :=
  let sgn : List Char × List Char := match cs with
    | '-' :: r => (['-'], r)
    | _ => ([], cs)
  match sgn.2 with
  | '0' :: r1 => some (numTail sgn.1 ['0'] r1)
  | c :: r1 =>
    if isDig c && c ≠ '0' then
      let p := digitSpan r1
      some (numTail sgn.1 (c :: p.1) p.2)
    else none
  | [] => none

mutual

/-- Parse one JSON value (fuel-indexed; the top level supplies ample fuel). -/
def parseJVal : Nat → List Char → Option (Json × List Char)
  | 0, _ => none
  | fuel + 1, cs =>
    match skipJWs cs with
    | 'n' :: 'u' :: 'l' :: 'l' :: r => some (.null, r)
    | 't' :: 'r' :: 'u' :: 'e' :: r => some (.bool true, r)
    | 'f' :: 'a' :: 'l' :: 's' :: 'e' :: r => some (.bool false, r)
    | 'N' :: 'a' :: 'N' :: r => some (.num "NaN", r)
    | 'I' :: 'n' :: 'f' :: 'i' :: 'n' :: 'i' :: 't' :: 'y' :: r => some (.num "Infinity", r)
    | '-' :: 'I' :: 'n' :: 'f' :: 'i' :: 'n' :: 'i' :: 't' :: 'y' :: r =>
      some (.num "-Infinity", r)
    | '"' :: r =>
      (match parseJStr r with
       | some (s, r') => some (.str s, r')
       | none => none)
    | '[' :: r =>
      (match skipJWs r with
       | ']' :: r' => some (.arr [], r')
       | r' =>
         match parseJItems fuel r' with
         | some (es, r2) => some (.arr es, r2)
         | none => none)
    | '{' :: r =>
      (match skipJWs r with
       | '}' :: r' => some (.obj [], r')
       | r' =>
         match parseJPairs fuel r' with
         | some (ms, r2) => some (.obj ms, r2)
         | none => none)
    | c :: rest =>
      if c = '-' || isDig c then
        match parseJNum (c :: rest) with
        | some (tok, r') => some (.num tok, r')
        | none => none
      else none
    | [] => none

/-- Parse one-or-more comma-separated array elements up to `]`. -/
def parseJItems : Nat → List Char → Option (List Json × List Char)
  | 0, _ => none
  | fuel + 1, cs =>
    match parseJVal fuel cs with
    | none => none
    | some (v, r) =>
      match skipJWs r with
      | ',' :: r' =>
        (match parseJItems fuel r' with
         | some (vs, r2) => some (v :: vs, r2)
         | none => none)
      | ']' :: r' => some ([v], r')
      | _ => none

/-- Parse one-or-more comma-separated object members up to a closing brace. -/
def parseJPairs : Nat → List Char → Option (List (String × Json) × List Char)
  | 0, _ => none
  | fuel + 1, cs =>
    match skipJWs cs with
    | '"' :: r =>
      (match parseJStr r with
       | none => none
       | some (k, r1) =>
         match skipJWs r1 with
         | ':' :: r2 =>
           (match parseJVal fuel r2 with
            | none => none
            | some (v, r3) =>
              match skipJWs r3 with
              | ',' :: r4 =>
                (match parseJPairs fuel r4 with
                 | some (ms, r5) => some ((k, v) :: ms, r5)
                 | none => none)
              | '}' :: r4 => some ([(k, v)], r4)
              | _ => none)
         | _ => none)
    | _ => none

end

/-- Model of `json.loads`: parse one document and insist on (whitespace-only)
    trailing input; `none` models `json.JSONDecodeError`. -/
def jsonLoads (s : String) : Option Json :=
  match parseJVal (2 * s.data.length + 8) s.data with
  | some (v, r) => if skipJWs r = [] then some v else none
  | none => none

/-! ## The LSB steganographic bit codec (`lsb_steganography.py`)

A cover image is its row-major list of RGB pixels (each channel `0..255`);
the payload QR bitmap is its dimensions together with a row-major pixel
predicate, `true` meaning a dark module (pixel value `0` in PIL mode `'1'`,
which the code embeds as bit `'1'`).  Both the embedding loop and the
extraction loops of the Python code traverse pixels row-major from `(0, 0)`,
i.e. in the order of these lists. -/

/-- A pixel: `(r, g, b)` channel samples. -/
abbrev Pixel := Nat × Nat × Nat

/-- Model of `_embed_bit`: set the LSB of a channel sample to the bit
    (`pixel_value & 254` for `'0'`, `pixel_value | 1` for `'1'`). -/
def embed_bit (pixel_value : Nat) (bit : Bool) : Nat :=
  if bit = false then pixel_value &&& 254 else pixel_value ||| 1

/-- Model of `_extract_lsb`: `'1'` iff the sample is odd. -/
def extract_lsb (pixel_value : Nat) : Bool := pixel_value % 2 == 1

/-- Length of Python's `format(n, "b")`: at least one digit. -/
def bitLen (n : Nat) : Nat := if n = 0 then 1 else n.log2 + 1

/-- Model of `_int_to_binary`: the big-endian bits of `format(n, f"0{bits}b")`.
    Python pads to `bits` characters but never truncates, so the width is
    `max bits (bitLen n)`. -/
def int_to_binary (n bits : Nat) : List Bool :=
  let w := max bits (bitLen n)
  (List.range w).map (fun i => n.testBit (w - 1 - i))

/-- Model of `_binary_to_int` (`int(s, 2)`). -/
def binary_to_int (bs : List Bool) : Nat :=
  bs.foldl (fun a b => 2 * a + (if b then 1 else 0)) 0

/-- The 8-bit all-zero header terminator `HEADER_TERMINATOR_BIN`. -/
def headerTerminator : List Bool := List.replicate 8 false

/-- The embedded header: 16-bit width, 16-bit height, terminator. -/
def headerBits (w h : Nat) : List Bool :=
  int_to_binary w 16 ++ int_to_binary h 16 ++ headerTerminator

/-- The payload bitstream: row-major, `true` (dark) per black module. -/
def qrBits (w h : Nat) (pix : Nat → Nat → Bool) : List Bool :=
  (List.range h).flatMap (fun y => (List.range w).map (fun x => pix x y))

/-- Nearest-neighbour resampling to `d × d`, modelling
    `Image.resize((d, d), Resampling.NEAREST)` from PIL (an external
    library): each target pixel samples the source at the scaled centre.
    No claim below depends on the sampled positions, only on dimensions. -/
def nearestResample (w h : Nat) (pix : Nat → Nat → Bool) (d : Nat) : Nat → Nat → Bool :=
  fun x y => pix ((2 * x + 1) * w / (2 * d)) ((2 * y + 1) * h / (2 * d))

/-- Model of `_resize_qr_for_capacity`: reserve 40 header bits, fail when
    nothing is left, compute `new_dimension = int(sqrt(available))`, return
    the image unresized when it already fits that square on both axes, and
    otherwise resample to `new_dimension × new_dimension`. -/
def resize_qr_for_capacity (w h : Nat) (pix : Nat → Nat → Bool) (max_capacity : Nat) :
    Except String (Nat × Nat × (Nat → Nat → Bool)) :=
  let available_bits_for_qr : Int := (max_capacity : Int) - (16 + 16 + 8)
  if available_bits_for_qr ≤ 0 then
    .error "Kapasitas cover image terlalu kecil bahkan untuk header saja."
  else
    let new_dimension := Nat.sqrt available_bits_for_qr.toNat
    if w ≤ new_dimension ∧ h ≤ new_dimension then .ok (w, h, pix)
    else .ok (new_dimension, new_dimension, nearestResample w h pix new_dimension)

/-- Write the bitstream into successive pixels' blue-channel LSBs, leaving
    every later pixel untouched (the embedding loop's `putpixel` per
    `next(data_bits_iterator)`). -/
def writeBits : List Bool → List Pixel → List Pixel
  | [], ps => ps
  | _, [] => []
  | bit :: bits, (r, g, b) :: ps => (r, g, embed_bit b bit) :: writeBits bits ps

/-- Outcome of `embed_qr_to_image`: a saved stego image, the fall-through
    of the embedding loop (every pixel consumed a bit, `StopIteration`
    never fires, the function prints a warning and returns **without
    saving any file**), or a raised `ValueError`. -/
inductive EmbedResult where
  | saved (stego : List Pixel)
  | notSaved
  | err (msg : String)
deriving Repr, DecidableEq

/-- Model of `embed_qr_to_image` on an opened cover image and QR bitmap.
    `max_capacity` is the cover pixel count; the two capacity checks, the
    optional resize and the embedding loop follow the source. -/
def embed_qr_to_image (cover : List Pixel) (qrW qrH : Nat) (qrPix : Nat → Nat → Bool)
    (resize_qr_if_needed : Bool) : EmbedResult :=
  let max_capacity := cover.length
  let total_bits_needed := (16 + 16 + 8) + qrW * qrH
  let afterResize : Except String (Nat × Nat × (Nat → Nat → Bool)) :=
    if total_bits_needed > max_capacity then
      if resize_qr_if_needed then resize_qr_for_capacity qrW qrH qrPix max_capacity
      else
        .error ("Kapasitas citra tidak cukup. Dibutuhkan: " ++ toString total_bits_needed ++
          " bits, Tersedia: " ++ toString max_capacity ++ " bits.")
    else .ok (qrW, qrH, qrPix)
  match afterResize with
  | .error msg => .err msg
  | .ok (w, h, pix) =>
    let bits := headerBits w h ++ qrBits w h pix
    if bits.length > max_capacity then
      .err ("Kapasitas citra tidak cukup bahkan setelah resize. Dibutuhkan: " ++
        toString bits.length ++ " bits, Tersedia: " ++ toString max_capacity ++ " bits.")
    else if bits.length < max_capacity then .saved (writeBits bits cover)
    else .notSaved

/-- Blue-channel LSB stream of an image, in traversal order. -/
def lsbs (img : List Pixel) : List Bool := img.map (fun p => extract_lsb p.2.2)

/-- The header-extraction loop: consume LSBs one at a time; once 40 bits are
    collected, test whether the stream ends with the terminator; on success
    the 32 bits before it must be exactly the width/height fields; scanning
    past `40 + 500` bits raises, as does exhausting the image. Returns the
    dimensions and the number of bits consumed. -/
def scanHeaderAux (acc : List Bool) : List Bool → Except String (Nat × Nat × Nat)
  | [] => .error "Gagal menemukan header QR Code dalam citra."
  | bit :: rest =>
    let acc' := acc ++ [bit]
    if 40 ≤ acc'.length then
      if acc'.drop (acc'.length - 8) = headerTerminator then
        if acc'.length - 8 = 32 then
          .ok (binary_to_int ((acc'.take 32).take 16),
               binary_to_int ((acc'.take 32).drop 16), acc'.length)
        else .error "Panjang header tidak sesuai setelah terminator ditemukan."
      else if acc'.length > 40 + 500 then
        .error "Terminator header tidak ditemukan dalam batas wajar piksel."
      else scanHeaderAux acc' rest
    else scanHeaderAux acc' rest

/-- Model of `extract_qr_from_image`: scan the header, then collect
    `qr_width * qr_height` further LSBs (the Python pixel iterator resumes
    at linear pixel index `pixels_processed`, i.e. right after the header in
    row-major order), failing when the image is too short.  The result is
    the recovered dimensions and the row-major payload bits (`true` = dark
    pixel, written as `0` into the reconstructed mode-`'1'` image). -/
def extract_qr_from_image (stego : List Pixel) : Except String (Nat × Nat × List Bool) :=
  let bits := lsbs stego
  match scanHeaderAux [] bits with
  | .error msg => .error msg
  | .ok (qr_width, qr_height, consumed) =>
    let expected := qr_width * qr_height
    let qrB := (bits.drop consumed).take expected
    if qrB.length < expected then
      .error ("Data tidak cukup. Hanya " ++ toString qrB.length ++ " dari " ++
        toString expected ++ " bit QR yang bisa diekstrak.")
    else .ok (qr_width, qr_height, qrB)

/-! ## The document-binding protocol (`document_security.py`)

Documents are passed as their byte content plus the metadata the code reads
from the file system and from the external docx/pdf libraries.  Python dicts
are member lists (`List (String × Json)`).  `uuid.uuid4()` and every
`time.time()` observation are explicit parameters (within one call of
`generate_binding_token` the two `int(time.time())` readings are modelled as
the same observation `now`). -/

/-- Model of `DocumentBinder.generate_document_fingerprint`: the fingerprint
    dict in insertion order, with `fingerprint_hash` equal to the SHA-256 of
    the `sort_keys=True` JSON dump of every other field, appended last. -/
def generate_document_fingerprint (content : Bytes) (filename ext : String)
    (modified_time : Int) (doc_metadata : Json) (document_id : String)
    (timestamp : Nat) : List (String × Json) :=
  let fingerprint : List (String × Json) :=
    [("version", .str "2.0"),
     ("document_id", .str document_id),
     ("timestamp", .int timestamp),
     ("file_info", .obj
       [("name", .str filename),
        ("size", .int content.length),
        ("extension", .str ext),
        ("modified_time", .int modified_time)]),
     ("content_hash", .str (sha256Hex content)),
     ("document_metadata", doc_metadata),
     ("security_level", .str "standard")]
  let fingerprint_hash := sha256Hex (utf8Encode (dumps true (.obj fingerprint)))
  fingerprint ++ [("fingerprint_hash", .str fingerprint_hash)]

/-- The inner binding payload dict of `generate_binding_token`
    (`KeyError` on a fingerprint missing either indexed field is reported
    through the surrounding `Except`). -/
def binding_payload (document_fingerprint : List (String × Json)) (qr_data : String)
    (expiry_hours now : Nat) : Option (List (String × Json)) :=
  match Json.lookup document_fingerprint "document_id",
        Json.lookup document_fingerprint "fingerprint_hash" with
  | some did, some fh =>
    some [("document_id", did),
          ("fingerprint_hash", fh),
          ("qr_data", .str qr_data),
          ("issued_at", .int now),
          ("expires_at", .int (now + expiry_hours * 3600)),
          ("version", .str "2.0")]
  | _, _ => none

/-- The serialized payload bytes: `json.dumps(payload, sort_keys=True)`
    encoded as UTF-8. -/
def payloadBytes (pm : List (String × Json)) : Bytes :=
  utf8Encode (dumps true (.obj pm))

/-- The outer token dict and its base64 encoding, as `generate_binding_token`
    builds them from the payload bytes and HMAC digest. -/
def encodeToken (payload_bytes signature : Bytes) : String :=
  b64encodeStr (utf8Encode (dumps false (.obj
    [("payload", .str (b64encodeStr payload_bytes)),
     ("signature", .str (b64encodeStr signature)),
     ("version", .str "2.0")])))

/-- Model of `DocumentBinder.generate_binding_token`. -/
def generate_binding_token (secret_key : Bytes) (document_fingerprint : List (String × Json))
    (qr_data : String) (expiry_hours now : Nat) : Except String String :=
  match binding_payload document_fingerprint qr_data expiry_hours now with
  | none => .error "Failed to generate binding token: KeyError"
  | some pm =>
    let payload_bytes := payloadBytes pm
    .ok (encodeToken payload_bytes (hmacSha256 secret_key payload_bytes))

/-- The structured result dict of `verify_binding_token`; `none` in an
    optional field means the Python dict does not carry that key. -/
structure VerifyResult where
  valid : Bool
  error : Option String := none
  expected_fingerprint : Option Json := none
  actual_fingerprint : Option Json := none
  qr_data : Option Json := none
  issued_at : Option Json := none
  expires_at : Option Json := none
  document_id : Option Json := none
  document_uuid : Option Json := none
  verification_time : Option Nat := none
deriving Repr, DecidableEq

/-- An exception inside the `try` body of `verify_binding_token`:
    `json.JSONDecodeError` has its own handler, everything else is caught
    by the generic handler. -/
inductive VerifyErr where
  | jsonDecode (msg : String)
  | other (msg : String)
deriving Repr, DecidableEq

/-- Substring test on character lists. -/
def isSub (pat : List Char) : List Char → Bool
  | [] => pat.isPrefixOf []
  | c :: cs => pat.isPrefixOf (c :: cs) || isSub pat cs

/-- Python `field in value` (dict key / list element / substring test);
    an error models the `TypeError` on non-container values. -/
def pyContains (v : Json) (field : String) : Except VerifyErr Bool :=
  match v with
  | .obj ms => .ok (Json.lookup ms field).isSome
  | .arr xs => .ok (xs.contains (.str field))
  | .str s => .ok (isSub field.data s.data)
  | _ => .error (.other "argument is not iterable")

/-- Numeric value of a run of decimal digits. -/
def digitsVal (ds : List Char) : Nat :=
  ds.foldl (fun a c => 10 * a + (c.toNat - 48)) 0

/-- Integer value of a JSON scalar as Python would order it against an
    `int`: integer-token numbers and booleans (floats, which cannot arise
    from tokens this model issues, are not modelled). -/
def asIntLike : Json → Option Int
  | .num tok =>
    (match tok.data with
     | '-' :: ds => if ds ≠ [] ∧ ds.all isDig then some (-(digitsVal ds : Int)) else none
     | ds => if ds ≠ [] ∧ ds.all isDig then some (digitsVal ds : Int) else none)
  | .bool b => some (if b then 1 else 0)
  | _ => none

/-- The `try` body of `verify_binding_token`: every early `return` is an
    `.ok`, every Python exception an `.error`. -/
def verifyStages (secret_key : Bytes) (token : String)
    (document_fingerprint : List (String × Json)) (now : Nat) :
    Except VerifyErr VerifyResult := do
  if ¬ token.data.all (fun c => c.toNat < 128) then
    throw (.other "ascii codec cannot encode character")
  let tokenBytes ← match b64decode token with
    | some bs => pure bs
    | none => throw (.other "Invalid base64-encoded string")
  let token_json ← match utf8Decode tokenBytes with
    | some s => pure s
    | none => throw (.other "utf-8 codec cannot decode byte")
  let token_data ← match jsonLoads token_json with
    | some v => pure v
    | none => throw (.jsonDecode "Expecting value")
  let hasPayload ← pyContains token_data "payload"
  if ¬ hasPayload then
    return { valid := false, error := some "Missing token field: payload" }
  let hasSignature ← pyContains token_data "signature"
  if ¬ hasSignature then
    return { valid := false, error := some "Missing token field: signature" }
  let hasVersion ← pyContains token_data "version"
  if ¬ hasVersion then
    return { valid := false, error := some "Missing token field: version" }
  let tm ← match token_data with
    | .obj ms => pure ms
    | _ => throw (.other "indices must be integers")
  let payload_b64 ← match Json.get tm "payload" with
    | .str s => pure s
    | _ => throw (.other "object has no attribute encode")
  let signature_b64 ← match Json.get tm "signature" with
    | .str s => pure s
    | _ => throw (.other "object has no attribute encode")
  if ¬ payload_b64.data.all (fun c => c.toNat < 128) then
    throw (.other "ascii codec cannot encode character")
  if ¬ signature_b64.data.all (fun c => c.toNat < 128) then
    throw (.other "ascii codec cannot encode character")
  let payload_bytes ← match b64decode payload_b64 with
    | some bs => pure bs
    | none => throw (.other "Invalid base64-encoded string")
  let signature_bytes ← match b64decode signature_b64 with
    | some bs => pure bs
    | none => throw (.other "Invalid base64-encoded string")
  let expected_signature := hmacSha256 secret_key payload_bytes
  if signature_bytes ≠ expected_signature then
    return { valid := false, error := some "Invalid token signature" }
  let payload_json ← match utf8Decode payload_bytes with
    | some s => pure s
    | none => throw (.other "utf-8 codec cannot decode byte")
  let payload ← match jsonLoads payload_json with
    | some v => pure v
    | none => throw (.jsonDecode "Expecting value")
  let pm ← match payload with
    | .obj ms => pure ms
    | _ => throw (.other "object has no attribute get")
  let expires_at ← match asIntLike ((Json.lookup pm "expires_at").getD (.int 0)) with
    | some v => pure v
    | none => throw (.other "not supported between instances")
  if (now : Int) > expires_at then
    return { valid := false, error := some "Token expired" }
  if Json.get pm "fingerprint_hash" ≠ Json.get document_fingerprint "fingerprint_hash" then
    return { valid := false, error := some "Document fingerprint mismatch",
             expected_fingerprint := some (Json.get pm "fingerprint_hash"),
             actual_fingerprint := some (Json.get document_fingerprint "fingerprint_hash") }
  return { valid := true,
           qr_data := some (Json.get pm "qr_data"),
           issued_at := some (Json.get pm "issued_at"),
           expires_at := some (Json.get pm "expires_at"),
           document_id := some (Json.get document_fingerprint "document_id"),
           document_uuid := some (Json.get pm "document_id"),
           verification_time := some now }

/-- Model of `DocumentBinder.verify_binding_token`: the `try` body with its
    two `except` handlers, which turn every exception into a structured
    invalid result — the function never raises. -/
def verify_binding_token (secret_key : Bytes) (token : String)
    (document_fingerprint : List (String × Json)) (now : Nat) : VerifyResult :=
  match verifyStages secret_key token document_fingerprint now with
  | .ok r => r
  | .error (.jsonDecode m) => { valid := false, error := some ("Invalid token format: " ++ m) }
  | .error (.other m) => { valid := false, error := some ("Verification failed: " ++ m) }

/-- Model of `DocumentBinder.create_secure_qr_data` (compact separators). -/
def create_secure_qr_data (original_data binding_token : String) (now : Nat) : String :=
  dumpsCompact (.obj
    [("version", .str "2.0"),
     ("type", .str "secure"),
     ("data", .str original_data),
     ("binding", .str binding_token),
     ("created_at", .int now)])

/-- The parsed-QR dict of `parse_secure_qr_data`; `Json.null` fields model
    Python `None`. -/
structure ParsedQR where
  is_secure : Bool
  original_data : Json
  binding_token : Json
  version : Json
  created_at : Json
  is_uuid_based : Bool
deriving Repr, DecidableEq

/-- The legacy/plain-text result of `parse_secure_qr_data`. -/
def legacyParsedQR (qr_data : String) : ParsedQR :=
  { is_secure := false, original_data := .str qr_data, binding_token := .null,
    version := .null, created_at := .null, is_uuid_based := false }

/-- Model of `DocumentBinder.parse_secure_qr_data`: secure iff the input
    parses as a JSON dict whose `type` equals `"secure"`; the version
    defaults to `"1.0"` only when the key is absent; anything else — parse
    failures included — is the legacy result carrying the whole input. -/
def parse_secure_qr_data (qr_data : String) : ParsedQR :=
  match jsonLoads qr_data with
  | some (.obj ms) =>
    if Json.get ms "type" = .str "secure" then
      let version := (Json.lookup ms "version").getD (.str "1.0")
      { is_secure := true,
        original_data := Json.get ms "data",
        binding_token := Json.get ms "binding",
        version := version,
        created_at := Json.get ms "created_at",
        is_uuid_based := version = .str "2.0" }
    else legacyParsedQR qr_data
  | _ => legacyParsedQR qr_data

/-- The compact fallback envelope of `SecureQRGenerator.generate_bound_qr`
    (`secure_qr_utils.py`): short field names and the binding token cut to
    its first 100 characters, compact separators, insertion order. -/
def compact_secure_data (data binding_token : String) : String :=
  dumpsCompact (.obj
    [("v", .str "1.0"),
     ("t", .str "s"),
     ("d", .str data),
     ("b", .str (binding_token.take 100))])

/-! ## Bit-codec lemmas -/

theorem and_254_mod_two (v : Nat) : (v &&& 254) % 2 = 0 := by
  have h : (v &&& 254) &&& 1 = v &&& (254 &&& 1) := Nat.land_assoc v 254 1
  rw [Nat.and_one_is_mod] at h
  norm_num at h
  simpa using h

theorem or_one_mod_two (v : Nat) : (v ||| 1) % 2 = 1 := by
  have h : (v ||| 1) &&& 1 = (v &&& 1) ||| (1 &&& 1) := Nat.and_distrib_right v 1 1
  rw [Nat.and_one_is_mod, Nat.and_one_is_mod, Nat.and_one_is_mod] at h
  rcases Nat.mod_two_eq_zero_or_one v with h2 | h2 <;> rw [h2] at h <;> simpa using h

theorem extract_lsb_embed_bit (v : Nat) (b : Bool) : extract_lsb (embed_bit v b) = b := by
  cases b with
  | false =>
    simp only [embed_bit, extract_lsb, if_pos rfl]
    simp [and_254_mod_two v]
  | true =>
    simp only [embed_bit, extract_lsb]
    simp [or_one_mod_two v]

theorem embed_bit_false (v : Nat) : embed_bit v false = v &&& 254 := rfl

theorem embed_bit_true (v : Nat) : embed_bit v true = v ||| 1 := rfl

theorem embed_bit_mod_two (v : Nat) (b : Bool) :
    embed_bit v b % 2 = if b then 1 else 0 := by
  cases b with
  | false => simpa [embed_bit] using and_254_mod_two v
  | true => simpa [embed_bit] using or_one_mod_two v

theorem embed_bit_div_two (v : Nat) (b : Bool) (hv : v < 256) :
    embed_bit v b / 2 = v / 2 := by
  cases b with
  | false =>
    have h : (v &&& 254) >>> 1 = (v >>> 1) &&& 127 := by
      apply Nat.eq_of_testBit_eq
      intro i
      rw [Nat.testBit_shiftRight, Nat.testBit_and, Nat.testBit_and, Nat.testBit_shiftRight]
      rw [show (127 : Nat) = 254 >>> 1 from by decide, Nat.testBit_shiftRight]
    rw [Nat.shiftRight_eq_div_pow, Nat.shiftRight_eq_div_pow] at h
    norm_num at h
    rw [embed_bit_false, h, show (127 : Nat) = 2 ^ 7 - 1 from by norm_num,
      Nat.and_pow_two_sub_one_eq_mod]
    exact Nat.mod_eq_of_lt (by omega)
  | true =>
    have h : (v ||| 1) >>> 1 = v >>> 1 := by
      apply Nat.eq_of_testBit_eq
      intro i
      rw [Nat.testBit_shiftRight, Nat.testBit_shiftRight, Nat.testBit_or]
      have h1 : Nat.testBit 1 (1 + i) = false :=
        Nat.testBit_lt_two_pow (Nat.one_lt_two_pow_iff.mpr (by omega))
      rw [h1, Bool.or_false]
    rw [Nat.shiftRight_eq_div_pow, Nat.shiftRight_eq_div_pow] at h
    norm_num at h
    rw [embed_bit_true, h]

theorem writeBits_length (bits : List Bool) (ps : List Pixel) :
    (writeBits bits ps).length = ps.length := by
  induction bits generalizing ps with
  | nil => simp [writeBits]
  | cons b bs ih =>
    cases ps with
    | nil => simp [writeBits]
    | cons p ps' =>
      obtain ⟨r, g, bl⟩ := p
      simp [writeBits, ih]

theorem lsbs_writeBits (bits : List Bool) (ps : List Pixel) (h : bits.length ≤ ps.length) :
    lsbs (writeBits bits ps) = bits ++ (lsbs ps).drop bits.length := by
  induction bits generalizing ps with
  | nil => simp [writeBits, lsbs]
  | cons b bs ih =>
    cases ps with
    | nil => simp at h
    | cons p ps' =>
      obtain ⟨r, g, bl⟩ := p
      simp only [writeBits, lsbs, List.map_cons, List.length_cons, List.drop_succ_cons,
        List.cons_append]
      rw [extract_lsb_embed_bit]
      have := ih ps' (by simpa using h)
      simp only [lsbs] at this
      rw [this]

theorem writeBits_getD_lt (bits : List Bool) (ps : List Pixel) (i : Nat)
    (hi : i < bits.length) (hle : bits.length ≤ ps.length) :
    (writeBits bits ps).getD i (0, 0, 0) =
      ((ps.getD i (0, 0, 0)).1, (ps.getD i (0, 0, 0)).2.1,
        embed_bit (ps.getD i (0, 0, 0)).2.2 (bits.getD i false)) := by
  induction bits generalizing ps i with
  | nil => simp at hi
  | cons b bs ih =>
    cases ps with
    | nil => simp at hle
    | cons p ps' =>
      obtain ⟨r, g, bl⟩ := p
      cases i with
      | zero => simp [writeBits]
      | succ j =>
        simp only [writeBits, List.getD_cons_succ]
        exact ih ps' j (by simpa using hi) (by simpa using hle)

theorem writeBits_getD_ge (bits : List Bool) (ps : List Pixel) (i : Nat)
    (hi : bits.length ≤ i) :
    (writeBits bits ps).getD i (0, 0, 0) = ps.getD i (0, 0, 0) := by
  induction bits generalizing ps i with
  | nil => simp [writeBits]
  | cons b bs ih =>
    cases ps with
    | nil => simp [writeBits]
    | cons p ps' =>
      obtain ⟨r, g, bl⟩ := p
      cases i with
      | zero => simp at hi
      | succ j =>
        simp only [writeBits, List.getD_cons_succ]
        exact ih ps' j (by simpa using hi)

/-! ## Claim C9: `resize_qr_if_needed=False`short-circuits to the capacity error -/

/-- Claim C9: when the payload does not fit (`w*h + 40 >` cover pixel count)
    and `resize_qr_if_needed=False`, `embed_qr_to_image` raises the capacity
    `ValueError` directly — no resize is attempted and no stego image is
    produced (the `.err` outcome carries no image and nothing is written to
    the output path). -/
theorem C9_embed_no_resize_capacity_error (cover : List Pixel) (w h : Nat)
    (pix : Nat → Nat → Bool) (hcap : cover.length < 40 + w * h) :
    embed_qr_to_image cover w h pix false =
      .err ("Kapasitas citra tidak cukup. Dibutuhkan: " ++ toString (40 + w * h) ++
        " bits, Tersedia: " ++ toString cover.length ++ " bits.") := by
  have hgt : (16 + 16 + 8) + w * h > cover.length := by omega
  simp [embed_qr_to_image, hgt]

/-- Witness for C9 at a concrete cover and payload. -/
theorem C9_embed_no_resize_capacity_error_witness :
    embed_qr_to_image (List.replicate 100 ((0, 0, 0) : Pixel)) 20 20 (fun _ _ => true) false =
      .err ("Kapasitas citra tidak cukup. Dibutuhkan: " ++ toString 440 ++
        " bits, Tersedia: " ++ toString 100 ++ " bits.") := by
  have := C9_embed_no_resize_capacity_error (List.replicate 100 ((0, 0, 0) : Pixel))
    20 20 (fun _ _ => true) (by simp)
  simpa using this

/-! ## Claim C6: the resize policy -/

/-- Claim C6: with `A = P - 40` available payload bits, the resize policy
    (i) fails with the capacity error when `A ≤ 0`; (ii) when the payload
    does not fit (`w*h > A`) it rescales to the square `d × d` with
    `d = floor (sqrt A)` (nearest-neighbour resampling), and `d*d + 40 ≤ P`;
    (iii) a payload already within `d` on both axes is returned unresized.
    The chosen dimension `d` depends only on `A`, so the policy is
    deterministic. -/
theorem C6_resize_policy (w h : Nat) (pix : Nat → Nat → Bool) (P : Nat) :
    (P ≤ 40 → resize_qr_for_capacity w h pix P =
      .error "Kapasitas cover image terlalu kecil bahkan untuk header saja.") ∧
    (40 < P → P - 40 < w * h →
      resize_qr_for_capacity w h pix P =
        .ok (Nat.sqrt (P - 40), Nat.sqrt (P - 40),
          nearestResample w h pix (Nat.sqrt (P - 40))) ∧
      Nat.sqrt (P - 40) * Nat.sqrt (P - 40) + 40 ≤ P) ∧
    (40 < P → w ≤ Nat.sqrt (P - 40) → h ≤ Nat.sqrt (P - 40) →
      resize_qr_for_capacity w h pix P = .ok (w, h, pix)) := by
  refine ⟨?_, ?_, ?_⟩
  · intro hP
    unfold resize_qr_for_capacity
    rw [if_pos (by omega : (P : Int) - (16 + 16 + 8) ≤ 0)]
  · intro hP hbig
    have hA : ((P : Int) - (16 + 16 + 8)).toNat = P - 40 := by omega
    have hnofit : ¬ (w ≤ Nat.sqrt (P - 40) ∧ h ≤ Nat.sqrt (P - 40)) := by
      rintro ⟨hw, hh⟩
      have : w * h ≤ Nat.sqrt (P - 40) * Nat.sqrt (P - 40) := Nat.mul_le_mul hw hh
      have := Nat.sqrt_le (P - 40)
      omega
    constructor
    · unfold resize_qr_for_capacity
      rw [if_neg (by omega : ¬ ((P : Int) - (16 + 16 + 8) ≤ 0))]
      rw [hA, if_neg hnofit]
    · have := Nat.sqrt_le (P - 40)
      omega
  · intro hP hw hh
    unfold resize_qr_for_capacity
    rw [if_neg (by omega : ¬ ((P : Int) - (16 + 16 + 8) ≤ 0))]
    have hA : ((P : Int) - (16 + 16 + 8)).toNat = P - 40 := by omega
    rw [hA, if_pos ⟨hw, hh⟩]

theorem sqrt360 : Nat.sqrt 360 = 18 :=
  Nat.le_antisymm (by rw [← Nat.lt_succ_iff]; exact Nat.sqrt_lt.mpr (by norm_num))
    (Nat.le_sqrt.mpr (by norm_num))

/-- Witness for C6: scenario B of the spec — a 400-pixel cover and a 30×30
    payload resize to `floor (sqrt 360) = 18`, and `18*18 + 40 ≤ 400`;
    also the error case at `P = 40` and the unresized case. -/
theorem C6_resize_policy_witness :
    (resize_qr_for_capacity 30 30 (fun _ _ => true) 400 =
      .ok (18, 18, nearestResample 30 30 (fun _ _ => true) 18) ∧
      18 * 18 + 40 ≤ 400) ∧
    resize_qr_for_capacity 30 30 (fun _ _ => true) 40 =
      .error "Kapasitas cover image terlalu kecil bahkan untuk header saja." ∧
    resize_qr_for_capacity 10 12 (fun _ _ => true) 400 = .ok (10, 12, fun _ _ => true) := by
  refine ⟨?_, ?_, ?_⟩
  · have := (C6_resize_policy 30 30 (fun _ _ => true) 400).2.1 (by norm_num) (by norm_num)
    rw [sqrt360] at this
    exact this
  · exact (C6_resize_policy 30 30 (fun _ _ => true) 40).1 (by norm_num)
  · have := (C6_resize_policy 10 12 (fun _ _ => true) 400).2.2 (by norm_num)
    rw [sqrt360] at this
    exact this (by norm_num) (by norm_num)

/-! ## Bitstream header lemmas and the embed/extract round trip -/

theorem binfold_init (bs : List Bool) (a : Nat) :
    bs.foldl (fun x b => 2 * x + (if b then 1 else 0)) a
      = a * 2 ^ bs.length + bs.foldl (fun x b => 2 * x + (if b then 1 else 0)) 0 := by
  induction bs generalizing a with
  | nil => simp
  | cons b bs ih =>
    simp only [List.foldl_cons, List.length_cons]
    rw [ih (2 * a + (if b then 1 else 0)), ih (2 * 0 + (if b then 1 else 0))]
    rw [Nat.pow_succ]
    cases b <;> simp <;> ring

theorem toBits_mod (w n : Nat) :
    binary_to_int ((List.range w).map (fun i => n.testBit (w - 1 - i))) = n % 2 ^ w := by
  induction w with
  | zero => simp [binary_to_int, Nat.mod_one]
  | succ w ih =>
    rw [List.range_succ_eq_map, List.map_cons, List.map_map]
    have hmap : (List.map ((fun i => n.testBit (w + 1 - 1 - i)) ∘ Nat.succ) (List.range w))
        = List.map (fun i => n.testBit (w - 1 - i)) (List.range w) := by
      apply List.map_congr_left
      intro i hi
      simp only [Function.comp_apply]
      congr 1
      omega
    rw [hmap]
    simp only [binary_to_int, List.foldl_cons] at ih ⊢
    rw [binfold_init]
    rw [ih]
    have hw : w + 1 - 1 - 0 = w := by omega
    rw [hw]
    rw [List.length_map, List.length_range]
    have hsplit : n % 2 ^ (w + 1) = n % 2 ^ w + 2 ^ w * (n / 2 ^ w % 2) := by
      rw [Nat.pow_succ]
      exact Nat.mod_mul
    rw [hsplit, Nat.testBit_to_div_mod]
    rcases Nat.mod_two_eq_zero_or_one (n / 2 ^ w) with h2 | h2 <;> rw [h2] <;> simp
    ring

theorem bitLen_le_of_lt (n k : Nat) (hk : 0 < k) (h : n < 2 ^ k) : bitLen n ≤ k := by
  unfold bitLen
  split
  · omega
  · rename_i hn
    have := (Nat.log2_lt hn).mpr h
    omega

theorem int_to_binary_length_eq (n k : Nat) (hk : 0 < k) (h : n < 2 ^ k) :
    (int_to_binary n k).length = k := by
  simp [int_to_binary, Nat.max_eq_left (bitLen_le_of_lt n k hk h)]

theorem binary_to_int_int_to_binary (n k : Nat) (hk : 0 < k) (h : n < 2 ^ k) :
    binary_to_int (int_to_binary n k) = n := by
  unfold int_to_binary
  rw [Nat.max_eq_left (bitLen_le_of_lt n k hk h)]
  rw [toBits_mod]
  exact Nat.mod_eq_of_lt h

theorem headerBits_length (w h : Nat) (hw : w < 65536) (hh : h < 65536) :
    (headerBits w h).length = 40 := by
  simp only [headerBits, List.length_append, headerTerminator, List.length_replicate]
  rw [int_to_binary_length_eq w 16 (by norm_num) (by norm_num at hw ⊢; omega),
    int_to_binary_length_eq h 16 (by norm_num) (by norm_num at hh ⊢; omega)]

theorem qrBits_length (w h : Nat) (pix : Nat → Nat → Bool) :
    (qrBits w h pix).length = w * h := by
  rw [qrBits, List.length_flatMap]
  have : List.map (List.length ∘ fun y => List.map (fun x => pix x y) (List.range w))
      (List.range h) = List.map (fun _ => w) (List.range h) := by
    apply List.map_congr_left
    intro y hy
    simp
  rw [this]
  rw [List.map_const', List.sum_replicate, smul_eq_mul]
  · simp [Nat.mul_comm]

theorem headerBits_assoc (w h : Nat) :
    headerBits w h = (int_to_binary w 16 ++ int_to_binary h 16) ++ headerTerminator := by
  rw [headerBits, List.append_assoc]

theorem headerBits_front_length (w h : Nat) (hw : w < 65536) (hh : h < 65536) :
    (int_to_binary w 16 ++ int_to_binary h 16).length = 32 := by
  rw [List.length_append,
    int_to_binary_length_eq w 16 (by norm_num) (by norm_num at hw ⊢; omega),
    int_to_binary_length_eq h 16 (by norm_num) (by norm_num at hh ⊢; omega)]

theorem headerBits_drop32 (w h : Nat) (hw : w < 65536) (hh : h < 65536) :
    (headerBits w h).drop 32 = headerTerminator := by
  rw [headerBits_assoc, ← headerBits_front_length w h hw hh, List.drop_left]

theorem headerBits_take32 (w h : Nat) (hw : w < 65536) (hh : h < 65536) :
    (headerBits w h).take 32 = int_to_binary w 16 ++ int_to_binary h 16 := by
  rw [headerBits_assoc, ← headerBits_front_length w h hw hh, List.take_left]

theorem headerBits_fields (w h : Nat) (hw : w < 65536) (hh : h < 65536) :
    ((headerBits w h).take 32).take 16 = int_to_binary w 16 ∧
    ((headerBits w h).take 32).drop 16 = int_to_binary h 16 := by
  rw [headerBits_take32 w h hw hh]
  have hlw : (int_to_binary w 16).length = 16 :=
    int_to_binary_length_eq w 16 (by norm_num) (by norm_num at hw ⊢; omega)
  exact ⟨List.take_left' hlw, List.drop_left' hlw⟩

theorem scanHeaderAux_cons (acc : List Bool) (b : Bool) (rest : List Bool) :
    scanHeaderAux acc (b :: rest) =
      (if 40 ≤ (acc ++ [b]).length then
        if (acc ++ [b]).drop ((acc ++ [b]).length - 8) = headerTerminator then
          if (acc ++ [b]).length - 8 = 32 then
            .ok (binary_to_int (((acc ++ [b]).take 32).take 16),
                 binary_to_int (((acc ++ [b]).take 32).drop 16), (acc ++ [b]).length)
          else .error "Panjang header tidak sesuai setelah terminator ditemukan."
        else if (acc ++ [b]).length > 40 + 500 then
          .error "Terminator header tidak ditemukan dalam batas wajar piksel."
        else scanHeaderAux (acc ++ [b]) rest
      else scanHeaderAux (acc ++ [b]) rest) := rfl

theorem scanAux_run (w h : Nat) (hw : w < 65536) (hh : h < 65536) (tail : List Bool) :
    ∀ suf pre, pre ++ suf = headerBits w h → suf ≠ [] →
      scanHeaderAux pre (suf ++ tail) = .ok (w, h, 40) := by
  intro suf
  induction suf with
  | nil => intro pre _ hne; exact absurd rfl hne
  | cons b suf' ih =>
    intro pre hpre _
    cases suf' with
    | nil =>
      have hlen40 : (pre ++ [b]).length = 40 := by
        rw [hpre, headerBits_length w h hw hh]
      rw [List.cons_append, List.nil_append, scanHeaderAux_cons]
      rw [hlen40, if_pos (by omega)]
      rw [hpre]
      rw [show (40 : Nat) - 8 = 32 from by omega, headerBits_drop32 w h hw hh, if_pos rfl]
      rw [if_pos (by omega)]
      obtain ⟨hf1, hf2⟩ := headerBits_fields w h hw hh
      rw [hf1, hf2,
        binary_to_int_int_to_binary w 16 (by norm_num) (by norm_num at hw ⊢; omega),
        binary_to_int_int_to_binary h 16 (by norm_num) (by norm_num at hh ⊢; omega)]
    | cons b2 suf2 =>
      have hl := congrArg List.length hpre
      rw [List.length_append, headerBits_length w h hw hh] at hl
      simp only [List.length_cons] at hl
      have hlt : ¬ (40 ≤ (pre ++ [b]).length) := by
        rw [List.length_append]
        simp only [List.length_cons, List.length_nil]
        omega
      rw [List.cons_append, scanHeaderAux_cons, if_neg hlt]
      exact ih (pre ++ [b]) (by rw [List.append_assoc]; simpa using hpre) (by simp)

theorem embed_extract_roundtrip (cover : List Pixel) (w h : Nat) (pix : Nat → Nat → Bool)
    (hw : w < 65536) (hh : h < 65536) (hcap : 40 + w * h < cover.length) :
    embed_qr_to_image cover w h pix true =
      .saved (writeBits (headerBits w h ++ qrBits w h pix) cover) ∧
    extract_qr_from_image (writeBits (headerBits w h ++ qrBits w h pix) cover) =
      .ok (w, h, qrBits w h pix) := by
  have hblen : (headerBits w h ++ qrBits w h pix).length = 40 + w * h := by
    rw [List.length_append, headerBits_length w h hw hh, qrBits_length]
  constructor
  · simp only [embed_qr_to_image]
    rw [if_neg (by omega : ¬ ((16 + 16 + 8) + w * h > cover.length))]
    dsimp only
    rw [if_neg (by omega : ¬ ((headerBits w h ++ qrBits w h pix).length > cover.length))]
    rw [if_pos (by omega : (headerBits w h ++ qrBits w h pix).length < cover.length)]
  · have hlsb : lsbs (writeBits (headerBits w h ++ qrBits w h pix) cover) =
        headerBits w h ++ (qrBits w h pix ++
          (lsbs cover).drop (headerBits w h ++ qrBits w h pix).length) := by
      rw [lsbs_writeBits _ _ (by omega), List.append_assoc]
    simp only [extract_qr_from_image]
    rw [hlsb]
    rw [scanAux_run w h hw hh _ (headerBits w h) [] (by simp)
      (by intro hnil; have := congrArg List.length hnil;
          rw [headerBits_length w h hw hh] at this; simp at this)]
    dsimp only
    have hdrop : (headerBits w h ++ (qrBits w h pix ++
        (lsbs cover).drop (headerBits w h ++ qrBits w h pix).length)).drop 40 =
        qrBits w h pix ++ (lsbs cover).drop (headerBits w h ++ qrBits w h pix).length := by
      rw [← headerBits_length w h hw hh, List.drop_left]
    rw [hdrop]
    rw [List.take_left' (qrBits_length w h pix)]
    rw [if_neg (by rw [qrBits_length]; omega)]

/-- Claim C1 fails at the boundary `w*h + 40 = P`: for a 481-pixel cover and
    a 21×21 payload (441 + 40 = 481 bits) the embedding loop consumes a bit
    at every pixel, `StopIteration` never fires, and `embed_qr_to_image`
    falls through to its "should be unreachable" warning and returns without
    saving any stego image — so the promised round trip cannot even start.
    (For the strict case `w*h + 40 < P` the round trip does hold:
    `embed_extract_roundtrip` above.) -/
theorem C1_embed_boundary :
    embed_qr_to_image (List.replicate 481 ((255, 255, 255) : Pixel)) 21 21
      (fun _ _ => true) true = .notSaved := by
  have hblen : (headerBits 21 21 ++ qrBits 21 21 (fun _ _ => true)).length = 481 := by
    rw [List.length_append, headerBits_length 21 21 (by norm_num) (by norm_num),
      qrBits_length]
  simp only [embed_qr_to_image, List.length_replicate]
  rw [if_neg (by omega : ¬ ((16 + 16 + 8) + 21 * 21 > 481))]
  dsimp only
  rw [if_neg (by omega : ¬ ((headerBits 21 21 ++ qrBits 21 21 (fun _ _ => true)).length > 481))]
  rw [if_neg (by omega : ¬ ((headerBits 21 21 ++ qrBits 21 21 (fun _ _ => true)).length < 481))]

/-- Claim C7: embedding writes exactly one bit per consumed blue-channel
    sample in row-major order from pixel `(0,0)` — bit `0` clears the LSB
    (`value & 254`), bit `1` sets it (`value | 1`), the other bits of the
    sample (`value / 2`) are untouched — the red and green channels of the
    consumed pixels are unchanged, and every pixel beyond the first
    `40 + w*h` equals the cover. -/
theorem C7_embed_frame_effect (cover : List Pixel) (w h : Nat) (pix : Nat → Nat → Bool)
    (hw : w < 65536) (hh : h < 65536) (hcap : 40 + w * h < cover.length)
    (hbytes : ∀ p ∈ cover, p.2.2 < 256) :
    embed_qr_to_image cover w h pix true =
      .saved (writeBits (headerBits w h ++ qrBits w h pix) cover) ∧
    (writeBits (headerBits w h ++ qrBits w h pix) cover).length = cover.length ∧
    (∀ i, i < 40 + w * h →
      ((writeBits (headerBits w h ++ qrBits w h pix) cover).getD i (0, 0, 0)).1 =
        (cover.getD i (0, 0, 0)).1 ∧
      ((writeBits (headerBits w h ++ qrBits w h pix) cover).getD i (0, 0, 0)).2.1 =
        (cover.getD i (0, 0, 0)).2.1 ∧
      ((writeBits (headerBits w h ++ qrBits w h pix) cover).getD i (0, 0, 0)).2.2 =
        embed_bit (cover.getD i (0, 0, 0)).2.2
          ((headerBits w h ++ qrBits w h pix).getD i false) ∧
      ((writeBits (headerBits w h ++ qrBits w h pix) cover).getD i (0, 0, 0)).2.2 / 2 =
        (cover.getD i (0, 0, 0)).2.2 / 2) ∧
    (∀ i, 40 + w * h ≤ i →
      (writeBits (headerBits w h ++ qrBits w h pix) cover).getD i (0, 0, 0) =
        cover.getD i (0, 0, 0)) ∧
    (∀ v, embed_bit v false = v &&& 254 ∧ embed_bit v true = v ||| 1 ∧
      ∀ b, embed_bit v b % 2 = if b then 1 else 0) := by
  have hblen : (headerBits w h ++ qrBits w h pix).length = 40 + w * h := by
    rw [List.length_append, headerBits_length w h hw hh, qrBits_length]
  refine ⟨(embed_extract_roundtrip cover w h pix hw hh hcap).1,
    writeBits_length _ _, ?_, ?_, ?_⟩
  · intro i hi
    have hget := writeBits_getD_lt (headerBits w h ++ qrBits w h pix) cover i
      (by omega) (by omega)
    refine ⟨by rw [hget], by rw [hget], by rw [hget], ?_⟩
    rw [hget]
    apply embed_bit_div_two
    have hmem : cover.getD i (0, 0, 0) ∈ cover := by
      rw [List.getD_eq_getElem _ _ (by omega)]
      exact List.getElem_mem _
    exact hbytes _ hmem
  · intro i hi
    exact writeBits_getD_ge _ _ i (by omega)
  · intro v
    exact ⟨rfl, rfl, fun b => embed_bit_mod_two v b⟩

/-- Witness for C7 at a concrete cover and payload. -/
theorem C7_embed_frame_effect_witness :
    ((writeBits (headerBits 3 3 ++ qrBits 3 3 (fun x y => x == y))
        (List.replicate 60 ((10, 20, 30) : Pixel))).getD 50 (0, 0, 0)) =
      (10, 20, 30) ∧
    embed_bit 30 true % 2 = 1 := by
  have h := C7_embed_frame_effect (List.replicate 60 ((10, 20, 30) : Pixel)) 3 3
    (fun x y => x == y) (by norm_num) (by norm_num) (by simp)
    (by intro p hp; simp at hp; subst hp; norm_num)
  constructor
  · have := h.2.2.2.1 50 (by norm_num)
    rw [this]
    rfl
  · simpa using (h.2.2.2.2 30).2.2 true

/-! ## Claim C2: fingerprint determinism -/

/-- The `_extract_document_metadata` result for extensions with no special
    handler (the non-docx, non-pdf branch). -/
def extract_document_metadata_basic (ext : String) : Json :=
  .obj [("type", .str ext), ("extraction_method", .str "basic")]

/-- Counterexample to claim C2: the fingerprint dict hashed by
    `generate_document_fingerprint` contains the freshly drawn UUIDv4
    `document_id`, so two runs over the same bytes, metadata and timestamp
    but (as UUIDv4 guarantees with overwhelming probability) different
    `document_id`s produce different `fingerprint_hash` values. -/
theorem C2_fingerprint_hash_uuid_counterexample :
    Json.get (generate_document_fingerprint [97] "a.txt" ".txt" 0
        (extract_document_metadata_basic ".txt")
        "00000000-0000-4000-8000-000000000000" 1700000000) "fingerprint_hash" ≠
      Json.get (generate_document_fingerprint [97] "a.txt" ".txt" 0
        (extract_document_metadata_basic ".txt")
        "00000000-0000-4000-8000-000000000001" 1700000000) "fingerprint_hash" := by
  have h1 : Json.get (generate_document_fingerprint [97] "a.txt" ".txt" 0
      (extract_document_metadata_basic ".txt")
      "00000000-0000-4000-8000-000000000000" 1700000000) "fingerprint_hash" =
        .str "75b22d0c94c9b7bf415063a4f8db9ba21859ba4f50f05c34ab45c568888e13e8" := by rfl
  have h2 : Json.get (generate_document_fingerprint [97] "a.txt" ".txt" 0
      (extract_document_metadata_basic ".txt")
      "00000000-0000-4000-8000-000000000001" 1700000000) "fingerprint_hash" =
        .str "c6aa42ed82ded8356a8d8a0abdb53585e1c479f99849335ff6517ddb3f78963d" := by rfl
  rw [h1, h2]
  decide

theorem gen_lookup_version (content : Bytes) (nm ext : String) (mt : Int) (md : Json)
    (id : String) (t : Nat) :
    Json.lookup (generate_document_fingerprint content nm ext mt md id t) "version" =
      some (.str "2.0") := rfl

theorem gen_lookup_file_info (content : Bytes) (nm ext : String) (mt : Int) (md : Json)
    (id : String) (t : Nat) :
    Json.lookup (generate_document_fingerprint content nm ext mt md id t) "file_info" =
      some (.obj [("name", .str nm), ("size", .int content.length),
        ("extension", .str ext), ("modified_time", .int mt)]) := rfl

theorem gen_lookup_content_hash (content : Bytes) (nm ext : String) (mt : Int) (md : Json)
    (id : String) (t : Nat) :
    Json.lookup (generate_document_fingerprint content nm ext mt md id t) "content_hash" =
      some (.str (sha256Hex content)) := rfl

theorem gen_lookup_metadata (content : Bytes) (nm ext : String) (mt : Int) (md : Json)
    (id : String) (t : Nat) :
    Json.lookup (generate_document_fingerprint content nm ext mt md id t) "document_metadata" =
      some md := rfl

theorem gen_lookup_security (content : Bytes) (nm ext : String) (mt : Int) (md : Json)
    (id : String) (t : Nat) :
    Json.lookup (generate_document_fingerprint content nm ext mt md id t) "security_level" =
      some (.str "standard") := rfl

theorem gen_lookup_document_id (content : Bytes) (nm ext : String) (mt : Int) (md : Json)
    (id : String) (t : Nat) :
    Json.lookup (generate_document_fingerprint content nm ext mt md id t) "document_id" =
      some (.str id) := rfl

theorem gen_lookup_timestamp (content : Bytes) (nm ext : String) (mt : Int) (md : Json)
    (id : String) (t : Nat) :
    Json.lookup (generate_document_fingerprint content nm ext mt md id t) "timestamp" =
      some (.int t) := rfl

theorem gen_lookup_hash (content : Bytes) (nm ext : String) (mt : Int) (md : Json)
    (id : String) (t : Nat) :
    Json.lookup (generate_document_fingerprint content nm ext mt md id t) "fingerprint_hash" =
      some (.str (sha256Hex (utf8Encode (dumps true (.obj
        [("version", .str "2.0"),
         ("document_id", .str id),
         ("timestamp", .int t),
         ("file_info", .obj
           [("name", .str nm),
            ("size", .int content.length),
            ("extension", .str ext),
            ("modified_time", .int mt)]),
         ("content_hash", .str (sha256Hex content)),
         ("document_metadata", md),
         ("security_level", .str "standard")]))))) := rfl

/-- Amended claim C2: the fingerprint is a pure function of the byte
    content, file metadata, document metadata, timestamp **and** the drawn
    `document_id`; two fingerprints of the same bytes (at any timestamps and
    UUIDs) agree on every field except `timestamp`, `document_id` and —
    because the hashed JSON contains both — `fingerprint_hash`, which is the
    SHA-256 of the canonical sorted-key serialization of the seven other
    fields. -/
theorem C2_fingerprint_determinism (content : Bytes) (nm ext : String) (mt : Int)
    (md : Json) (id1 id2 : String) (t1 t2 : Nat) :
    Json.lookup (generate_document_fingerprint content nm ext mt md id1 t1) "version" =
      Json.lookup (generate_document_fingerprint content nm ext mt md id2 t2) "version" ∧
    Json.lookup (generate_document_fingerprint content nm ext mt md id1 t1) "file_info" =
      Json.lookup (generate_document_fingerprint content nm ext mt md id2 t2) "file_info" ∧
    Json.lookup (generate_document_fingerprint content nm ext mt md id1 t1) "content_hash" =
      Json.lookup (generate_document_fingerprint content nm ext mt md id2 t2) "content_hash" ∧
    Json.lookup (generate_document_fingerprint content nm ext mt md id1 t1) "document_metadata" =
      Json.lookup (generate_document_fingerprint content nm ext mt md id2 t2) "document_metadata" ∧
    Json.lookup (generate_document_fingerprint content nm ext mt md id1 t1) "security_level" =
      Json.lookup (generate_document_fingerprint content nm ext mt md id2 t2) "security_level" ∧
    Json.lookup (generate_document_fingerprint content nm ext mt md id1 t1) "document_id" =
      some (.str id1) ∧
    Json.lookup (generate_document_fingerprint content nm ext mt md id1 t1) "timestamp" =
      some (.int t1) ∧
    Json.lookup (generate_document_fingerprint content nm ext mt md id1 t1) "fingerprint_hash" =
      some (.str (sha256Hex (utf8Encode (dumps true (.obj
        [("version", .str "2.0"),
         ("document_id", .str id1),
         ("timestamp", .int t1),
         ("file_info", .obj
           [("name", .str nm),
            ("size", .int content.length),
            ("extension", .str ext),
            ("modified_time", .int mt)]),
         ("content_hash", .str (sha256Hex content)),
         ("document_metadata", md),
         ("security_level", .str "standard")]))))) := by
  rw [gen_lookup_version, gen_lookup_version, gen_lookup_file_info, gen_lookup_file_info,
    gen_lookup_content_hash, gen_lookup_content_hash, gen_lookup_metadata, gen_lookup_metadata,
    gen_lookup_security, gen_lookup_security, gen_lookup_document_id, gen_lookup_timestamp,
    gen_lookup_hash]
  exact ⟨rfl, rfl, rfl, rfl, rfl, rfl, rfl, rfl⟩

/-! ## Claim C8: envelope parsing -/

/-- Claim C8: `parse_secure_qr_data` classifies its input as secure iff the
    input parses as a JSON object carrying `type == "secure"`; a secure
    envelope with no `version` key defaults to `"1.0"`; every other input —
    JSON parse failures included — yields the legacy result, whose
    `original_data` is the whole input string (and the function is total:
    it returns a structured result rather than raising). -/
theorem C8_parse_secure_iff (s : String) :
    ((parse_secure_qr_data s).is_secure = true ↔
      (∃ ms, jsonLoads s = some (.obj ms) ∧ Json.get ms "type" = .str "secure")) ∧
    ((parse_secure_qr_data s).is_secure = false → parse_secure_qr_data s = legacyParsedQR s) ∧
    (∀ ms, jsonLoads s = some (.obj ms) → Json.get ms "type" = .str "secure" →
      Json.lookup ms "version" = none → (parse_secure_qr_data s).version = .str "1.0") := by
  refine ⟨⟨?_, ?_⟩, ?_, ?_⟩
  · intro hsec
    unfold parse_secure_qr_data at hsec
    split at hsec
    · rename_i ms heq
      split at hsec
      · rename_i htype
        exact ⟨ms, heq, htype⟩
      · simp [legacyParsedQR] at hsec
    · simp [legacyParsedQR] at hsec
  · rintro ⟨ms, heq, htype⟩
    simp [parse_secure_qr_data, heq, htype]
  · intro hfalse
    unfold parse_secure_qr_data at hfalse ⊢
    split at hfalse
    · rename_i ms heq
      split at hfalse
      · simp at hfalse
      · rename_i htype
        rw [if_neg htype]
    · rfl
  · intro ms heq htype hver
    simp [parse_secure_qr_data, heq, htype, hver]

/-- Witness for C8: the spec's legacy-fallback scenario — `"plain text"`
    fails JSON parsing, so the result is the legacy record carrying the
    whole input, and a secure envelope without a version key parses with
    version `"1.0"`. -/
theorem C8_parse_secure_iff_witness :
    parse_secure_qr_data "plain text" = legacyParsedQR "plain text" ∧
    (parse_secure_qr_data "\x7b\"type\": \"secure\"\x7d").version = .str "1.0" := by
  constructor
  · exact (C8_parse_secure_iff "plain text").2.1 (by rfl)
  · exact (C8_parse_secure_iff "\x7b\"type\": \"secure\"\x7d").2.2
      [("type", .str "secure")] (by rfl) (by rfl) (by rfl)

/-! ## Decimal token lemmas -/

theorem natDecAux_fuel (n : Nat) : ∀ fuel, n < fuel → natDecAux fuel n = natDec n := by
  induction n using Nat.strongRecOn with
  | _ n ih =>
    intro fuel hf
    match fuel with
    | f + 1 =>
      simp only [natDec, natDecAux]
      by_cases h10 : n < 10
      · simp [h10]
      · simp only [if_neg h10]
        rw [ih (n / 10) (by omega) f (by omega), ih (n / 10) (by omega) n (by omega)]

theorem natDec_unfold (n : Nat) :
    natDec n = if n < 10 then [Char.ofNat (48 + n)]
      else natDec (n / 10) ++ [Char.ofNat (48 + n % 10)] := by
  rw [natDec, natDecAux]
  by_cases h10 : n < 10
  · rw [if_pos h10, if_pos h10]
  · rw [if_neg h10, if_neg h10, natDecAux_fuel (n / 10) n (by omega)]

theorem isDig_digitChar (k : Nat) (h : k < 10) : isDig (Char.ofNat (48 + k)) = true := by
  interval_cases k <;> decide

theorem digitChar_ne_zero (k : Nat) (h1 : 1 ≤ k) (h : k < 10) : Char.ofNat (48 + k) ≠ '0' := by
  interval_cases k <;> decide

theorem natDec_ne_nil (n : Nat) : natDec n ≠ [] := by
  rw [natDec_unfold]
  split <;> simp

theorem natDec_digits (n : Nat) : ∀ c ∈ natDec n, isDig c = true := by
  induction n using Nat.strongRecOn with
  | _ n ih =>
    rw [natDec_unfold]
    intro c hc
    by_cases h10 : n < 10
    · rw [if_pos h10] at hc
      simp only [List.mem_singleton] at hc
      subst hc
      exact isDig_digitChar n h10
    · rw [if_neg h10] at hc
      rw [List.mem_append] at hc
      rcases hc with hc | hc
      · exact ih (n / 10) (by omega) c hc
      · simp only [List.mem_singleton] at hc
        subst hc
        exact isDig_digitChar (n % 10) (by omega)

theorem natDec_head (n : Nat) (hn : 1 ≤ n) :
    ∃ c t, natDec n = c :: t ∧ isDig c = true ∧ c ≠ '0' := by
  induction n using Nat.strongRecOn with
  | _ n ih =>
    rw [natDec_unfold]
    by_cases h10 : n < 10
    · rw [if_pos h10]
      exact ⟨_, _, rfl, isDig_digitChar n h10, digitChar_ne_zero n hn h10⟩
    · rw [if_neg h10]
      obtain ⟨c, t, hct, hd, hz⟩ := ih (n / 10) (by omega) (by omega)
      exact ⟨c, t ++ [Char.ofNat (48 + n % 10)], by rw [hct]; rfl, hd, hz⟩

theorem digitsVal_append (ds : List Char) (c : Char) :
    digitsVal (ds ++ [c]) = 10 * digitsVal ds + (c.toNat - 48) := by
  simp [digitsVal, List.foldl_append]

theorem digitsVal_natDec (n : Nat) : digitsVal (natDec n) = n := by
  induction n using Nat.strongRecOn with
  | _ n ih =>
    rw [natDec_unfold]
    by_cases h10 : n < 10
    · rw [if_pos h10]
      simp only [digitsVal, List.foldl_cons, List.foldl_nil]
      have : (Char.ofNat (48 + n)).toNat = 48 + n := by
        interval_cases n <;> decide
      omega
    · rw [if_neg h10, digitsVal_append, ih (n / 10) (by omega)]
      have : (Char.ofNat (48 + n % 10)).toNat = 48 + n % 10 := by
        have h : n % 10 < 10 := by omega
        interval_cases hm : n % 10 <;> decide
      omega

/-! ## Number-token parsing lemmas -/

/-- A list that cannot extend a number token: empty or headed by something
    that is neither a digit nor `.`, `e`, `E`. -/
def numStop : List Char → Prop
  | [] => True
  | c :: _ => isDig c = false ∧ c ≠ '.' ∧ c ≠ 'e' ∧ c ≠ 'E'

theorem digitSpan_stop (r : List Char) (h : numStop r) : digitSpan r = ([], r) := by
  match r with
  | [] => rfl
  | c :: t =>
    obtain ⟨hd, _, _, _⟩ := h
    rw [digitSpan, if_neg (by simp [hd])]

theorem digitSpan_run (ds : List Char) (hds : ∀ c ∈ ds, isDig c = true)
    (rest : List Char) (hrest : digitSpan rest = ([], rest)) :
    digitSpan (ds ++ rest) = (ds, rest) := by
  induction ds with
  | nil => simpa using hrest
  | cons c t ih =>
    have hc : isDig c = true := hds c (by simp)
    rw [List.cons_append, digitSpan, if_pos (by simp [hc])]
    rw [ih (fun x hx => hds x (by simp [hx]))]

theorem expPart_stop (r : List Char) (h : numStop r) : expPart r = ([], r) := by
  unfold expPart
  split
  · rename_i c t
    rw [if_neg]
    obtain ⟨_, _, he, hE⟩ := h
    simp [he, hE]
  · rfl

theorem numTail_stop (sgn intPart r : List Char) (h : numStop r) :
    numTail sgn intPart r = (String.mk (sgn ++ intPart), r) := by
  unfold numTail
  split
  · obtain ⟨_, hdot, _, _⟩ := h
    exact absurd rfl hdot
  · simp only [expPart_stop _ h]
    simp

theorem parseJNum_zero_head (t : List Char) :
    parseJNum ('0' :: t) = some (numTail [] ['0'] t) := rfl

theorem parseJNum_digit_head (c : Char) (t : List Char) (hd : isDig c = true) (hz : c ≠ '0') :
    parseJNum (c :: t) = some (numTail [] (c :: (digitSpan t).1) (digitSpan t).2) := by
  have hm : c ≠ '-' := by intro hcon; rw [hcon] at hd; exact absurd hd (by decide)
  have hsgn : (match c :: t with
      | '-' :: r => ((['-'] : List Char), r)
      | x => (([] : List Char), c :: t)) = ([], c :: t) := by
    split
    · rename_i r heq
      injection heq with h1 _
      exact absurd h1 hm
    · rfl
  unfold parseJNum
  rw [hsgn]
  simp only []
  split
  · rfl
  · rename_i hguard
    exact absurd (by simp [hd, hz]) hguard

theorem parseJNum_natDec (n : Nat) (rest : List Char) (h : numStop rest) :
    parseJNum (natDec n ++ rest) = some (String.mk (natDec n), rest) := by
  by_cases h0 : n = 0
  · subst h0
    rw [show natDec 0 = ['0'] from by decide]
    rw [show (['0'] : List Char) ++ rest = '0' :: rest from rfl]
    rw [parseJNum_zero_head, numTail_stop [] ['0'] rest h]
    simp
  · obtain ⟨c, t, hct, hd, hz⟩ := natDec_head n (by omega)
    rw [hct, List.cons_append, parseJNum_digit_head c (t ++ rest) hd hz]
    have hspan : digitSpan (t ++ rest) = (t, rest) := by
      apply digitSpan_run
      · intro x hx
        exact natDec_digits n x (by rw [hct]; simp [hx])
      · exact digitSpan_stop rest h
    rw [hspan]
    rw [numTail_stop [] (c :: t) rest h]
    rw [← hct]
    simp


/-! ## String-escape round trip -/

theorem char_valid_range (c : Char) :
    c.toNat < 55296 ∨ (57343 < c.toNat ∧ c.toNat < 1114112) := by
  have hv := c.valid
  unfold UInt32.isValidChar Nat.isValidChar at hv
  have he : c.toNat = c.val.toNat := rfl
  rcases hv with h | h
  · left; omega
  · right; omega

theorem hexv_hexDigitChar (d : Nat) (h : d < 16) : hexv (hexDigitChar d) = some d := by
  interval_cases d <;> decide

theorem hexQuad_digits (n : Nat) (h : n < 65536) :
    hexQuad (hexDigitChar (n / 4096 % 16)) (hexDigitChar (n / 256 % 16))
      (hexDigitChar (n / 16 % 16)) (hexDigitChar (n % 16)) = some n := by
  unfold hexQuad
  rw [hexv_hexDigitChar _ (by omega), hexv_hexDigitChar _ (by omega),
    hexv_hexDigitChar _ (by omega), hexv_hexDigitChar _ (by omega)]
  simp only []
  congr 1
  omega

theorem parseJStrAux_uEscape (n : Nat) (hlo : ¬ (55296 ≤ n ∧ n < 56320)) (hn : n < 65536)
    (acc rest : List Char) :
    parseJStrAux acc (uEscape n ++ rest) = parseJStrAux (Char.ofNat n :: acc) rest := by
  show parseJStrAux acc ('\\' :: 'u' :: hexDigitChar (n / 4096 % 16) ::
    hexDigitChar (n / 256 % 16) :: hexDigitChar (n / 16 % 16) :: hexDigitChar (n % 16) :: rest)
      = parseJStrAux (Char.ofNat n :: acc) rest
  rw [parseJStrAux]
  rw [hexQuad_digits n hn]
  simp only []
  rw [if_neg (by simpa using hlo)]

theorem parseJStrAux_plain (c : Char) (acc rest : List Char)
    (hq : c ≠ '"') (hb : c ≠ '\\') (hc : 32 ≤ c.toNat) :
    parseJStrAux acc (c :: rest) = parseJStrAux (c :: acc) rest := by
  rw [parseJStrAux.eq_def]
  split
  · rename_i heq
    injection heq with h1 _
    exact absurd h1 hq
  · rename_i heq
    injection heq with h1 _
    exact absurd h1 hb
  · rename_i heq
    injection heq with h1 _
    exact absurd h1 hb
  · rename_i heq
    injection heq with h1 _
    exact absurd h1 hb
  · rename_i c' rest' heq
    injection heq with h1 h2
    subst h1
    subst h2
    rw [if_neg (by omega)]
  · rename_i heq
    exact absurd heq (by simp)

theorem parseJStrAux_pair (hi lo : Nat) (hhi : 55296 <= hi ∧ hi < 56320)
    (hlo : 56320 <= lo ∧ lo < 57344) (acc rest : List Char) :
    parseJStrAux acc ('\\' :: 'u' :: hexDigitChar (hi / 4096 % 16) ::
      hexDigitChar (hi / 256 % 16) :: hexDigitChar (hi / 16 % 16) :: hexDigitChar (hi % 16) ::
      '\\' :: 'u' :: hexDigitChar (lo / 4096 % 16) :: hexDigitChar (lo / 256 % 16) ::
      hexDigitChar (lo / 16 % 16) :: hexDigitChar (lo % 16) :: rest) =
      parseJStrAux (Char.ofNat (65536 + (hi - 55296) * 1024 + (lo - 56320)) :: acc) rest := by
  rw [parseJStrAux]
  rw [hexQuad_digits hi (by omega)]
  simp only []
  rw [if_pos (by simp only [Bool.and_eq_true, decide_eq_true_eq]; omega)]
  rw [hexQuad_digits lo (by omega)]
  simp only []
  rw [if_pos (by simp only [Bool.and_eq_true, decide_eq_true_eq]; omega)]

theorem parseJStrAux_escChar (c : Char) (acc rest : List Char) :
    parseJStrAux acc (escChar c ++ rest) = parseJStrAux (c :: acc) rest := by
  unfold escChar
  split_ifs with h1 h2 h3 h4 h5 h6 h7 h8 h9
  · subst h1; rfl
  · subst h2; rfl
  · subst h3; rfl
  · subst h4; rfl
  · subst h5; rfl
  · subst h6; rfl
  · subst h7; rfl
  · simp only [List.cons_append, List.nil_append, List.singleton_append]
    exact parseJStrAux_plain c acc rest h1 h2 (by simp at h8; omega)
  · rw [parseJStrAux_uEscape c.toNat ?_ h9 acc rest, Char.ofNat_toNat]
    rcases char_valid_range c with h | h <;> omega
  · rcases char_valid_range c with h | h
    · omega
    · simp only [uEscape, List.cons_append, List.nil_append, List.append_assoc]
      rw [parseJStrAux_pair (55296 + (c.toNat - 65536) / 1024)
        (56320 + (c.toNat - 65536) % 1024) (by constructor <;> omega)
        (by constructor <;> omega) acc rest]
      have harith : 65536 + (55296 + (c.toNat - 65536) / 1024 - 55296) * 1024 +
          (56320 + (c.toNat - 65536) % 1024 - 56320) = c.toNat := by omega
      rw [harith, Char.ofNat_toNat]

theorem parseJStrAux_run (cs : List Char) : ∀ (acc rest : List Char),
    parseJStrAux acc (cs.flatMap escChar ++ '"' :: rest) =
      some (String.mk (acc.reverse ++ cs), rest) := by
  induction cs with
  | nil => intro acc rest; simp [parseJStrAux]
  | cons c cs ih =>
    intro acc rest
    rw [List.flatMap_cons, List.append_assoc, parseJStrAux_escChar, ih]
    simp

theorem parseJStr_dumpStr (s : String) (rest : List Char) :
    parseJStr (s.data.flatMap escChar ++ '"' :: rest) = some (s, rest) := by
  rw [parseJStr, parseJStrAux_run]
  simp


/-! ## Scalar-value parsing -/

/-- Values whose serialization the round-trip lemmas cover: strings, and
    numbers whose token is a natural-number decimal (the only number shape
    the binding code serializes into parsed-back JSON). -/
def rtScalar : Json → Prop
  | .str _ => True
  | .num tok => ∃ n : Nat, tok = String.mk (natDec n)
  | _ => False

theorem skipJWs_all (ws : List Char) (hws : ∀ c ∈ ws, isJWs c = true) :
    ∀ r, skipJWs (ws ++ r) = skipJWs r := by
  induction ws with
  | nil => intro r; rfl
  | cons c t ih =>
    intro r
    rw [List.cons_append, skipJWs, if_pos (hws c (by simp))]
    exact ih (fun x hx => hws x (by simp [hx])) r

theorem skipJWs_not_ws (c : Char) (t : List Char) (hc : isJWs c = false) :
    skipJWs (c :: t) = c :: t := by
  rw [skipJWs, if_neg (by simp [hc])]

theorem digit_not_ws (c : Char) (hd : isDig c = true) : isJWs c = false := by
  revert hd
  unfold isDig isJWs
  intro hd
  by_contra hcon
  simp only [Bool.not_eq_false, Bool.or_eq_true, decide_eq_true_eq] at hcon
  rcases hcon with ((h | h) | h) | h <;> subst h <;> simp at hd

theorem parseJVal_str (fuel : Nat) (s : String) (rest : List Char) :
    parseJVal (fuel + 1) (dumpStr s ++ rest) = some (.str s, rest) := by
  have hshape : dumpStr s ++ rest = '"' :: (s.data.flatMap escChar ++ ('"' :: rest)) := by
    rw [dumpStr]
    simp [List.append_assoc]
  have hstep : parseJVal (fuel + 1) ('"' :: (s.data.flatMap escChar ++ ('"' :: rest))) =
      (match parseJStr (s.data.flatMap escChar ++ ('"' :: rest)) with
       | some (s', r') => some (.str s', r')
       | none => none) := rfl
  rw [hshape, hstep, parseJStr_dumpStr]

theorem char_digit_cases (c : Char) (hd : isDig c = true) :
    c.toNat = 48 ∨ c.toNat = 49 ∨ c.toNat = 50 ∨ c.toNat = 51 ∨ c.toNat = 52 ∨
    c.toNat = 53 ∨ c.toNat = 54 ∨ c.toNat = 55 ∨ c.toNat = 56 ∨ c.toNat = 57 := by
  unfold isDig at hd
  simp only [Bool.and_eq_true, decide_eq_true_eq] at hd
  have h1 : (48 : Nat) ≤ c.toNat := hd.1
  have h2 : c.toNat ≤ 57 := hd.2
  omega

theorem parseJVal_digit (fuel : Nat) (c : Char) (T : List Char) (hd : isDig c = true) :
    parseJVal (fuel + 1) (c :: T) =
      (match parseJNum (c :: T) with
       | some (tok, r') => some (.num tok, r')
       | none => none) := by
  have hofn := Char.ofNat_toNat c
  rcases char_digit_cases c hd with h | h | h | h | h | h | h | h | h | h <;>
    (rw [← hofn, h]; rfl)

theorem parseJVal_natDec (fuel : Nat) (n : Nat) (rest : List Char) (h : numStop rest) :
    parseJVal (fuel + 1) (natDec n ++ rest) =
      some (.num (String.mk (natDec n)), rest) := by
  obtain ⟨c, t, hct, hd, _⟩ :
      ∃ c t, natDec n = c :: t ∧ isDig c = true ∧ (n = 0 ∨ c ≠ '0') := by
    by_cases h0 : n = 0
    · subst h0
      exact ⟨'0', [], by decide, by decide, Or.inl rfl⟩
    · obtain ⟨c, t, hct, hd, hz⟩ := natDec_head n (by omega)
      exact ⟨c, t, hct, hd, Or.inr hz⟩
  rw [hct, List.cons_append, parseJVal_digit fuel c (t ++ rest) hd, ← List.cons_append, ← hct]
  rw [parseJNum_natDec n rest h]

/-- The body of `parseJVal` after whitespace skipping (proof helper). -/
def parseJValGo (fuel : Nat) : List Char → Option (Json × List Char)
  | 'n' :: 'u' :: 'l' :: 'l' :: r => some (.null, r)
  | 't' :: 'r' :: 'u' :: 'e' :: r => some (.bool true, r)
  | 'f' :: 'a' :: 'l' :: 's' :: 'e' :: r => some (.bool false, r)
  | 'N' :: 'a' :: 'N' :: r => some (.num "NaN", r)
  | 'I' :: 'n' :: 'f' :: 'i' :: 'n' :: 'i' :: 't' :: 'y' :: r => some (.num "Infinity", r)
  | '-' :: 'I' :: 'n' :: 'f' :: 'i' :: 'n' :: 'i' :: 't' :: 'y' :: r =>
    some (.num "-Infinity", r)
  | '"' :: r =>
    (match parseJStr r with
     | some (s, r') => some (.str s, r')
     | none => none)
  | '[' :: r =>
    (match skipJWs r with
     | ']' :: r' => some (.arr [], r')
     | r' =>
       match parseJItems fuel r' with
       | some (es, r2) => some (.arr es, r2)
       | none => none)
  | '{' :: r =>
    (match skipJWs r with
     | '}' :: r' => some (.obj [], r')
     | r' =>
       match parseJPairs fuel r' with
       | some (ms, r2) => some (.obj ms, r2)
       | none => none)
  | c :: rest =>
    if c = '-' || isDig c then
      match parseJNum (c :: rest) with
      | some (tok, r') => some (.num tok, r')
      | none => none
    else none
  | [] => none

theorem parseJVal_go (fuel : Nat) (cs : List Char) :
    parseJVal (fuel + 1) cs = parseJValGo fuel (skipJWs cs) := rfl

theorem parseJValGo_eq (fuel : Nat) (X : List Char) (hX : skipJWs X = X) :
    parseJValGo fuel X = parseJVal (fuel + 1) X := by
  rw [parseJVal_go, hX]

theorem parseJVal_ws_scalar (fuel : Nat) (ws : List Char) (hws : ∀ c ∈ ws, isJWs c = true)
    (isep ksep : List Char) (v : Json) (hv : rtScalar v) (rest : List Char)
    (hrest : numStop rest) :
    parseJVal (fuel + 1) (ws ++ (dumpVal isep ksep v ++ rest)) = some (v, rest) := by
  rw [parseJVal_go, skipJWs_all ws hws]
  match v, hv with
  | .str s, _ =>
    have hhead : dumpVal isep ksep (.str s) ++ rest = '"' :: (s.data.flatMap escChar ++ ('"' :: rest)) := by
      show dumpStr s ++ rest = _
      rw [dumpStr]
      simp [List.append_assoc]
    rw [hhead, skipJWs_not_ws '"' _ (by decide)]
    rw [parseJValGo_eq fuel _ (skipJWs_not_ws '"' _ (by decide))]
    rw [← hhead]
    show parseJVal (fuel + 1) (dumpStr s ++ rest) = _
    exact parseJVal_str fuel s rest
  | .num tok, hv =>
    obtain ⟨n, hn⟩ := hv
    subst hn
    obtain ⟨c, t, hct, hd⟩ : ∃ c t, natDec n = c :: t ∧ isDig c = true := by
      by_cases h0 : n = 0
      · subst h0
        exact ⟨'0', [], by decide, by decide⟩
      · obtain ⟨c, t, hct, hd, _⟩ := natDec_head n (by omega)
        exact ⟨c, t, hct, hd⟩
    have hshape : dumpVal isep ksep (.num (String.mk (natDec n))) ++ rest = c :: (t ++ rest) := by
      show (String.mk (natDec n)).data ++ rest = _
      rw [show (String.mk (natDec n)).data = natDec n from rfl, hct, List.cons_append]
    rw [hshape, skipJWs_not_ws c _ (digit_not_ws c hd)]
    rw [parseJValGo_eq fuel _ (skipJWs_not_ws c _ (digit_not_ws c hd))]
    rw [← List.cons_append, ← hct]
    exact parseJVal_natDec fuel n rest hrest

/-- The body of `parseJPairs` after whitespace skipping (proof helper). -/
def parseJPairsGo (fuel : Nat) : List Char → Option (List (String × Json) × List Char)
  | '"' :: r =>
    (match parseJStr r with
     | none => none
     | some (k, r1) =>
       match skipJWs r1 with
       | ':' :: r2 =>
         (match parseJVal fuel r2 with
          | none => none
          | some (v, r3) =>
            match skipJWs r3 with
            | ',' :: r4 =>
              (match parseJPairs fuel r4 with
               | some (ms, r5) => some ((k, v) :: ms, r5)
               | none => none)
            | '}' :: r4 => some ([(k, v)], r4)
            | _ => none)
       | _ => none)
  | _ => none

theorem parseJPairs_go (fuel : Nat) (cs : List Char) :
    parseJPairs (fuel + 1) cs = parseJPairsGo fuel (skipJWs cs) := rfl

theorem parseJPairs_flat (isep ksep wsI wsK : List Char)
    (hisep : isep = ',' :: wsI) (hksep : ksep = ':' :: wsK)
    (hwsI : ∀ c ∈ wsI, isJWs c = true) (hwsK : ∀ c ∈ wsK, isJWs c = true) :
    ∀ (ms : List (String × Json)) (fuel : Nat) (ws rest : List Char),
      (∀ c ∈ ws, isJWs c = true) →
      ms ≠ [] → (∀ m ∈ ms, rtScalar m.2) → ms.length ≤ fuel →
      parseJPairs (fuel + 1) (ws ++ (dumpMembers isep ksep ms ++ '}' :: rest)) =
        some (ms, rest) := by
  intro ms
  induction ms with
  | nil => intro fuel ws rest _ hne _ _; exact absurd rfl hne
  | cons m ms' ih =>
    intro fuel ws rest hws _ hsc hlen
    obtain ⟨k, v⟩ := m
    match fuel, hlen with
    | g + 1, hlen2 =>
    cases ms' with
    | nil =>
      have hshape : dumpMembers isep ksep [(k, v)] ++ '}' :: rest =
          '"' :: (k.data.flatMap escChar ++
            ('"' :: (':' :: (wsK ++ (dumpVal isep ksep v ++ '}' :: rest))))) := by
        show (dumpStr k ++ ksep ++ dumpVal isep ksep v) ++ '}' :: rest = _
        rw [dumpStr, hksep]
        simp [List.append_assoc]
      rw [parseJPairs_go, skipJWs_all ws hws, hshape,
        skipJWs_not_ws '"' _ (by decide)]
      show (match parseJStr (k.data.flatMap escChar ++
          ('"' :: (':' :: (wsK ++ (dumpVal isep ksep v ++ '}' :: rest))))) with
        | none => none
        | some (k', r1) =>
          match skipJWs r1 with
          | ':' :: r2 =>
            (match parseJVal (g + 1) r2 with
             | none => none
             | some (v', r3) =>
               match skipJWs r3 with
               | ',' :: r4 =>
                 (match parseJPairs (g + 1) r4 with
                  | some (ms2, r5) => some ((k', v') :: ms2, r5)
                  | none => none)
               | '}' :: r4 => some ([(k', v')], r4)
               | _ => none)
          | _ => none) = some ([(k, v)], rest)
      rw [parseJStr_dumpStr]
      dsimp only
      rw [skipJWs_not_ws ':' _ (by decide)]
      simp only []
      rw [parseJVal_ws_scalar g wsK hwsK isep ksep v (hsc (k, v) (by simp))
        ('}' :: rest) (by exact ⟨by decide, by decide, by decide, by decide⟩)]
      dsimp only
      rw [skipJWs_not_ws '}' _ (by decide)]
      rfl
    | cons m2 ms2 =>
      have hshape : dumpMembers isep ksep ((k, v) :: m2 :: ms2) ++ '}' :: rest =
          '"' :: (k.data.flatMap escChar ++
            ('"' :: (':' :: (wsK ++ (dumpVal isep ksep v ++
              (',' :: (wsI ++ (dumpMembers isep ksep (m2 :: ms2) ++ '}' :: rest)))))))) := by
        show (dumpStr k ++ ksep ++ dumpVal isep ksep v ++ isep ++
          dumpMembers isep ksep (m2 :: ms2)) ++ '}' :: rest = _
        rw [dumpStr, hksep, hisep]
        simp [List.append_assoc]
      rw [parseJPairs_go, skipJWs_all ws hws, hshape,
        skipJWs_not_ws '"' _ (by decide)]
      show (match parseJStr (k.data.flatMap escChar ++
          ('"' :: (':' :: (wsK ++ (dumpVal isep ksep v ++
            (',' :: (wsI ++ (dumpMembers isep ksep (m2 :: ms2) ++ '}' :: rest)))))))) with
        | none => none
        | some (k', r1) =>
          match skipJWs r1 with
          | ':' :: r2 =>
            (match parseJVal (g + 1) r2 with
             | none => none
             | some (v', r3) =>
               match skipJWs r3 with
               | ',' :: r4 =>
                 (match parseJPairs (g + 1) r4 with
                  | some (ms3, r5) => some ((k', v') :: ms3, r5)
                  | none => none)
               | '}' :: r4 => some ([(k', v')], r4)
               | _ => none)
          | _ => none) = some ((k, v) :: m2 :: ms2, rest)
      rw [parseJStr_dumpStr]
      dsimp only
      rw [skipJWs_not_ws ':' _ (by decide)]
      simp only []
      rw [parseJVal_ws_scalar g wsK hwsK isep ksep v (hsc (k, v) (by simp))
        (',' :: (wsI ++ (dumpMembers isep ksep (m2 :: ms2) ++ '}' :: rest)))
        (by exact ⟨by decide, by decide, by decide, by decide⟩)]
      dsimp only
      rw [skipJWs_not_ws ',' _ (by decide)]
      simp only []
      rw [ih g wsI rest hwsI (by simp)
        (fun x hx => hsc x (by simp [List.mem_cons] at hx ⊢; tauto))
        (by simp only [List.length_cons] at hlen2 ⊢; omega)]

theorem dumpMembers_head (isep ksep : List Char) (k : String) (v : Json)
    (ms' : List (String × Json)) :
    ∃ t, dumpMembers isep ksep ((k, v) :: ms') = '"' :: t := by
  cases ms' with
  | nil =>
    refine ⟨k.data.flatMap escChar ++ '"' :: (ksep ++ dumpVal isep ksep v), ?_⟩
    show dumpStr k ++ ksep ++ dumpVal isep ksep v = _
    rw [dumpStr]
    simp [List.append_assoc]
  | cons m2 ms2 =>
    refine ⟨k.data.flatMap escChar ++ '"' ::
      (ksep ++ (dumpVal isep ksep v ++ (isep ++ dumpMembers isep ksep (m2 :: ms2)))), ?_⟩
    show dumpStr k ++ ksep ++ dumpVal isep ksep v ++ isep ++ dumpMembers isep ksep (m2 :: ms2) = _
    rw [dumpStr]
    simp [List.append_assoc]

theorem dumpMembers_length_ge (isep ksep : List Char) :
    ∀ ms : List (String × Json), ms.length ≤ (dumpMembers isep ksep ms).length := by
  intro ms
  induction ms with
  | nil => simp [dumpMembers]
  | cons m ms' ih =>
    obtain ⟨k, v⟩ := m
    cases ms' with
    | nil =>
      show 1 ≤ (dumpStr k ++ ksep ++ dumpVal isep ksep v).length
      rw [dumpStr]
      simp
    | cons m2 ms2 =>
      show (m2 :: ms2).length + 1 ≤
        (dumpStr k ++ ksep ++ dumpVal isep ksep v ++ isep ++ dumpMembers isep ksep (m2 :: ms2)).length
      rw [dumpStr]
      simp only [List.length_append, List.length_cons]
      have := ih
      simp only [List.length_cons] at this ⊢
      omega

theorem parseJValGo_obj (fuel : Nat) (X : List Char) :
    parseJValGo fuel ('{' :: X) =
      (match skipJWs X with
       | '}' :: r' => some (Json.obj [], r')
       | r' =>
         match parseJPairs fuel r' with
         | some (ms2, r2) => some (Json.obj ms2, r2)
         | none => none) := rfl

theorem parseJVal_flatObj (isep ksep wsI wsK : List Char)
    (hisep : isep = ',' :: wsI) (hksep : ksep = ':' :: wsK)
    (hwsI : ∀ c ∈ wsI, isJWs c = true) (hwsK : ∀ c ∈ wsK, isJWs c = true)
    (ms : List (String × Json)) (fuel : Nat) (rest : List Char)
    (hne : ms ≠ []) (hsc : ∀ m ∈ ms, rtScalar m.2) (hlen : ms.length ≤ fuel) :
    parseJVal (fuel + 2) ('{' :: (dumpMembers isep ksep ms ++ '}' :: rest)) =
      some (.obj ms, rest) := by
  rw [show fuel + 2 = (fuel + 1) + 1 from rfl, parseJVal_go,
    skipJWs_not_ws '{' _ (by decide), parseJValGo_obj]
  match ms, hne with
  | (k, v) :: ms', _ =>
  obtain ⟨t, ht⟩ := dumpMembers_head isep ksep k v ms'
  rw [ht, List.cons_append, skipJWs_not_ws '"' _ (by decide)]
  have hpairs := parseJPairs_flat isep ksep wsI wsK hisep hksep hwsI hwsK
    ((k, v) :: ms') fuel [] rest (by simp) (by simp) hsc hlen
  rw [List.nil_append, ht, List.cons_append] at hpairs
  show (match parseJPairs (fuel + 1) ('"' :: (t ++ '}' :: rest)) with
        | some (ms2, r2) => some (Json.obj ms2, r2)
        | none => none) = some (Json.obj ((k, v) :: ms'), rest)
  rw [hpairs]

theorem jsonLoads_dumpObj (isep ksep wsI wsK : List Char)
    (hisep : isep = ',' :: wsI) (hksep : ksep = ':' :: wsK)
    (hwsI : ∀ c ∈ wsI, isJWs c = true) (hwsK : ∀ c ∈ wsK, isJWs c = true)
    (ms : List (String × Json)) (hne : ms ≠ []) (hsc : ∀ m ∈ ms, rtScalar m.2) :
    jsonLoads (String.mk (dumpVal isep ksep (.obj ms))) = some (.obj ms) := by
  have hshape : (String.mk (dumpVal isep ksep (.obj ms))).data =
      '{' :: (dumpMembers isep ksep ms ++ '}' :: []) := by
    show dumpVal isep ksep (.obj ms) = _
    rw [dumpVal]
  rw [jsonLoads, hshape]
  have hlen : ('{' :: (dumpMembers isep ksep ms ++ '}' :: [])).length =
      (dumpMembers isep ksep ms).length + 2 := by simp
  rw [hlen]
  have hfuel : 2 * ((dumpMembers isep ksep ms).length + 2) + 8 =
      (2 * (dumpMembers isep ksep ms).length + 10) + 2 := by omega
  rw [hfuel]
  rw [parseJVal_flatObj isep ksep wsI wsK hisep hksep hwsI hwsK ms
    (2 * (dumpMembers isep ksep ms).length + 10) [] hne hsc
    (by have := dumpMembers_length_ge isep ksep ms; omega)]
  rfl

/-! ## UTF-8 round trip -/

theorem utf8EncodeChar_lt (c : Char) : ∀ b ∈ utf8EncodeChar c, b < 256 := by
  intro b hb
  have h : c.toNat < 1114112 := by
    rcases char_valid_range c with h | h <;> omega
  simp only [utf8EncodeChar] at hb
  split at hb
  · simp only [List.mem_singleton] at hb; omega
  · split at hb
    · simp only [List.mem_cons, List.not_mem_nil, or_false] at hb
      rcases hb with hb | hb <;> omega
    · split at hb
      · simp only [List.mem_cons, List.not_mem_nil, or_false] at hb
        rcases hb with hb | hb | hb <;> omega
      · simp only [List.mem_cons, List.not_mem_nil, or_false] at hb
        rcases hb with hb | hb | hb | hb <;> omega

theorem utf8DecodeAux_nil (fuel : Nat) (acc : List Char) :
    utf8DecodeAux (fuel + 1) acc [] = some acc.reverse := rfl

theorem utf8DecodeAux_cons (fuel : Nat) (acc : List Char) (b : Nat) (bs : Bytes) :
    utf8DecodeAux (fuel + 1) acc (b :: bs) =
      (if b < 128 then utf8DecodeAux fuel (Char.ofNat b :: acc) bs
       else if 194 ≤ b && b < 224 then
         match bs with
         | b1 :: bs' =>
           if isCont b1 then
             utf8DecodeAux fuel (Char.ofNat ((b - 192) * 64 + (b1 - 128)) :: acc) bs'
           else none
         | _ => none
       else if 224 ≤ b && b < 240 then
         match bs with
         | b1 :: b2 :: bs' =>
           let n := (b - 224) * 4096 + (b1 - 128) * 64 + (b2 - 128)
           if isCont b1 && isCont b2 && 2048 ≤ n && ¬ (55296 ≤ n && n < 57344) then
             utf8DecodeAux fuel (Char.ofNat n :: acc) bs'
           else none
         | _ => none
       else if 240 ≤ b && b < 245 then
         match bs with
         | b1 :: b2 :: b3 :: bs' =>
           let n := (b - 240) * 262144 + (b1 - 128) * 4096 + (b2 - 128) * 64 + (b3 - 128)
           if isCont b1 && isCont b2 && isCont b3 && 65536 ≤ n && n < 1114112 then
             utf8DecodeAux fuel (Char.ofNat n :: acc) bs'
           else none
         | _ => none
       else none) := rfl

theorem utf8DecodeAux_encodeChar (fuel : Nat) (acc : List Char) (c : Char) (bs : Bytes) :
    utf8DecodeAux (fuel + 1) acc (utf8EncodeChar c ++ bs) =
      utf8DecodeAux fuel (c :: acc) bs := by
  have hr := char_valid_range c
  have hofn := Char.ofNat_toNat c
  unfold utf8EncodeChar
  by_cases h1 : c.toNat < 128
  · rw [if_pos h1, List.cons_append, List.nil_append, utf8DecodeAux_cons, if_pos h1, hofn]
  · rw [if_neg h1]
    by_cases h2 : c.toNat < 2048
    · rw [if_pos h2,
        show [192 + c.toNat / 64, 128 + c.toNat % 64] ++ bs =
          (192 + c.toNat / 64) :: ((128 + c.toNat % 64) :: bs) from rfl,
        utf8DecodeAux_cons, if_neg (by omega),
        if_pos (by simp only [Bool.and_eq_true, decide_eq_true_eq]; omega)]
      dsimp only
      rw [show isCont (128 + c.toNat % 64) = true by
        simp only [isCont, Bool.and_eq_true, decide_eq_true_eq]; omega]
      rw [if_pos rfl,
        show (192 + c.toNat / 64 - 192) * 64 + (128 + c.toNat % 64 - 128) = c.toNat by omega,
        hofn]
    · rw [if_neg h2]
      by_cases h3 : c.toNat < 65536
      · rw [if_pos h3,
          show [224 + c.toNat / 4096, 128 + c.toNat / 64 % 64, 128 + c.toNat % 64] ++ bs =
            (224 + c.toNat / 4096) :: ((128 + c.toNat / 64 % 64) :: ((128 + c.toNat % 64) :: bs))
            from rfl,
          utf8DecodeAux_cons, if_neg (by omega),
          if_neg (by simp only [Bool.and_eq_true, decide_eq_true_eq]; omega),
          if_pos (by simp only [Bool.and_eq_true, decide_eq_true_eq]; omega)]
        dsimp only
        rw [if_pos (by
          simp only [isCont, Bool.and_eq_true, decide_eq_true_eq, Bool.not_eq_true,
            Bool.and_eq_false_iff, decide_eq_false_iff_not, not_lt, not_le]
          omega)]
        rw [show (224 + c.toNat / 4096 - 224) * 4096 + (128 + c.toNat / 64 % 64 - 128) * 64 +
            (128 + c.toNat % 64 - 128) = c.toNat by omega, hofn]
      · rw [if_neg h3,
          show [240 + c.toNat / 262144, 128 + c.toNat / 4096 % 64, 128 + c.toNat / 64 % 64,
              128 + c.toNat % 64] ++ bs =
            (240 + c.toNat / 262144) :: ((128 + c.toNat / 4096 % 64) ::
              ((128 + c.toNat / 64 % 64) :: ((128 + c.toNat % 64) :: bs))) from rfl,
          utf8DecodeAux_cons, if_neg (by omega),
          if_neg (by simp only [Bool.and_eq_true, decide_eq_true_eq]; omega),
          if_neg (by simp only [Bool.and_eq_true, decide_eq_true_eq]; omega),
          if_pos (by simp only [Bool.and_eq_true, decide_eq_true_eq]; omega)]
        dsimp only
        rw [if_pos (by
          simp only [isCont, Bool.and_eq_true, decide_eq_true_eq]
          omega)]
        rw [show (240 + c.toNat / 262144 - 240) * 262144 + (128 + c.toNat / 4096 % 64 - 128) * 4096 +
            (128 + c.toNat / 64 % 64 - 128) * 64 + (128 + c.toNat % 64 - 128) = c.toNat by omega,
          hofn]

theorem utf8DecodeAux_encode (cs : List Char) : ∀ (fuel : Nat) (acc : List Char),
    utf8DecodeAux (cs.length + fuel + 1) acc (cs.flatMap utf8EncodeChar) =
      some (acc.reverse ++ cs) := by
  induction cs with
  | nil =>
    intro fuel acc
    show utf8DecodeAux (fuel + 1) acc [] = some (acc.reverse ++ [])
    rw [utf8DecodeAux_nil, List.append_nil]
  | cons c cs ih =>
    intro fuel acc
    rw [List.flatMap_cons,
      show (c :: cs).length + fuel + 1 = (cs.length + fuel + 1) + 1 by
        simp only [List.length_cons]; omega,
      utf8DecodeAux_encodeChar, ih]
    simp

theorem utf8EncodeChar_ne_nil (c : Char) : utf8EncodeChar c ≠ [] := by
  simp only [utf8EncodeChar]
  split
  · simp
  · split
    · simp
    · split <;> simp

theorem flatMap_utf8EncodeChar_length_ge (cs : List Char) :
    cs.length ≤ (cs.flatMap utf8EncodeChar).length := by
  induction cs with
  | nil => simp
  | cons c cs ih =>
    rw [List.flatMap_cons]
    have h1 : 1 ≤ (utf8EncodeChar c).length := by
      cases he : utf8EncodeChar c with
      | nil => exact absurd he (utf8EncodeChar_ne_nil c)
      | cons x xs => simp
    simp only [List.length_append, List.length_cons]
    omega

theorem utf8Decode_utf8Encode (s : String) : utf8Decode (utf8Encode s) = some s := by
  obtain ⟨cs⟩ := s
  show utf8Decode (cs.flatMap utf8EncodeChar) = some (String.mk cs)
  have hlen := flatMap_utf8EncodeChar_length_ge cs
  obtain ⟨d, hd⟩ : ∃ d, (cs.flatMap utf8EncodeChar).length = cs.length + d :=
    ⟨(cs.flatMap utf8EncodeChar).length - cs.length, by omega⟩
  rw [utf8Decode, hd, utf8DecodeAux_encode]
  simp

theorem utf8Encode_lt (s : String) : ∀ b ∈ utf8Encode s, b < 256 := by
  intro b hb
  rw [utf8Encode, List.mem_flatMap] at hb
  obtain ⟨c, _, hb⟩ := hb
  exact utf8EncodeChar_lt c b hb


/-! ## Base64 round trip -/

theorem b64Val_b64Char : ∀ v, v < 64 → b64Val (b64Char v) = some v := by decide

theorem b64Char_ne_eq : ∀ v, v < 64 → b64Char v ≠ '=' := by decide

theorem b64Char_ascii : ∀ v, v < 64 → (b64Char v).toNat < 128 := by decide

theorem b64encode_length_mod (bs : Bytes) : (b64encode bs).length % 4 = 0 := by
  induction bs using b64encode.induct with
  | case1 b0 b1 b2 rest ih =>
    show ((b64Char _ :: b64Char _ :: b64Char _ :: b64Char _ :: b64encode rest).length) % 4 = 0
    simp only [List.length_cons]
    omega
  | case2 b0 b1 => simp [b64encode]
  | case3 b0 => simp [b64encode]
  | case4 => rfl

theorem b64encode_alpha (bs : Bytes) (hbs : ∀ b ∈ bs, b < 256) :
    ∀ c ∈ b64encode bs, (b64Val c).isSome = true ∨ c = '=' := by
  induction bs using b64encode.induct with
  | case1 b0 b1 b2 rest ih =>
    have h0 := hbs b0 (by simp)
    have h1 := hbs b1 (by simp)
    have h2 := hbs b2 (by simp)
    intro c hc
    have hrest : ∀ b ∈ rest, b < 256 := fun b hb => hbs b (by simp [hb])
    rcases hc with _ | ⟨_, _ | ⟨_, _ | ⟨_, _ | ⟨_, hc⟩⟩⟩⟩
    · left; rw [b64Val_b64Char _ (by omega)]; rfl
    · left; rw [b64Val_b64Char _ (by omega)]; rfl
    · left; rw [b64Val_b64Char _ (by omega)]; rfl
    · left; rw [b64Val_b64Char _ (by omega)]; rfl
    · exact ih hrest c hc
  | case2 b0 b1 =>
    have h0 := hbs b0 (by simp)
    have h1 := hbs b1 (by simp)
    intro c hc
    rcases hc with _ | ⟨_, _ | ⟨_, _ | ⟨_, _ | ⟨_, hc⟩⟩⟩⟩
    · left; rw [b64Val_b64Char _ (by omega)]; rfl
    · left; rw [b64Val_b64Char _ (by omega)]; rfl
    · left; rw [b64Val_b64Char _ (by omega)]; rfl
    · right; rfl
    · cases hc
  | case3 b0 =>
    have h0 := hbs b0 (by simp)
    intro c hc
    rcases hc with _ | ⟨_, _ | ⟨_, _ | ⟨_, _ | ⟨_, hc⟩⟩⟩⟩
    · left; rw [b64Val_b64Char _ (by omega)]; rfl
    · left; rw [b64Val_b64Char _ (by omega)]; rfl
    · right; rfl
    · right; rfl
    · cases hc
  | case4 => intro c hc; cases hc

theorem b64encode_ascii (bs : Bytes) (hbs : ∀ b ∈ bs, b < 256) :
    ∀ c ∈ b64encode bs, c.toNat < 128 := by
  intro c hc
  rcases b64encode_alpha bs hbs c hc with h | h
  · rw [b64Val] at h
    split at h
    · rename_i hr
      simp only [Bool.and_eq_true, decide_eq_true_eq] at hr
      have h2 : c.toNat ≤ 90 := hr.2
      omega
    · split at h
      · rename_i hr
        simp only [Bool.and_eq_true, decide_eq_true_eq] at hr
        have h2 : c.toNat ≤ 122 := hr.2
        omega
      · split at h
        · rename_i hr
          simp only [Bool.and_eq_true, decide_eq_true_eq] at hr
          have h2 : c.toNat ≤ 57 := hr.2
          omega
        · split at h
          · rename_i hr; subst hr; decide
          · split at h
            · rename_i hr; subst hr; decide
            · simp at h
  · subst h; decide

theorem b64decodeGroups_cons (fuel : Nat) (c0 c1 c2 c3 : Char) (cs : List Char) :
    b64decodeGroups (fuel + 1) (c0 :: c1 :: c2 :: c3 :: cs) =
      (match b64Val c0, b64Val c1 with
       | some v0, some v1 =>
         if c2 = '=' then
           if c3 = '=' && cs = [] then some [v0 * 4 + v1 / 16] else none
         else
           match b64Val c2 with
           | some v2 =>
             if c3 = '=' then
               if cs = [] then some [v0 * 4 + v1 / 16, v1 % 16 * 16 + v2 / 4] else none
             else
               match b64Val c3 with
               | some v3 =>
                 (b64decodeGroups fuel cs).map
                   (fun rest => (v0 * 4 + v1 / 16) :: (v1 % 16 * 16 + v2 / 4) ::
                     (v2 % 4 * 64 + v3) :: rest)
               | none => none
           | none => none
       | _, _ => none) := rfl

theorem b64decodeGroups_encode (bs : Bytes) (hbs : ∀ b ∈ bs, b < 256) :
    ∀ fuel, b64decodeGroups ((b64encode bs).length + fuel + 1) (b64encode bs) = some bs := by
  induction bs using b64encode.induct with
  | case1 b0 b1 b2 rest ih =>
    have h0 := hbs b0 (by simp)
    have h1 := hbs b1 (by simp)
    have h2 := hbs b2 (by simp)
    have hrest : ∀ b ∈ rest, b < 256 := fun b hb => hbs b (by simp [hb])
    intro fuel
    show b64decodeGroups
      ((b64Char _ :: b64Char _ :: b64Char _ :: b64Char _ :: b64encode rest).length + fuel + 1)
      (b64Char _ :: b64Char _ :: b64Char _ :: b64Char _ :: b64encode rest) = _
    rw [show (b64Char ((b0 * 65536 + b1 * 256 + b2) / 262144) :: b64Char _ :: b64Char _ ::
        b64Char _ :: b64encode rest).length + fuel + 1 =
        ((b64encode rest).length + (fuel + 3) + 1) + 1 by
      simp only [List.length_cons]; omega]
    rw [b64decodeGroups_cons,
      b64Val_b64Char _ (by omega), b64Val_b64Char _ (by omega)]
    dsimp only
    rw [if_neg (b64Char_ne_eq _ (by omega)), b64Val_b64Char _ (by omega)]
    dsimp only
    rw [if_neg (b64Char_ne_eq _ (by omega)), b64Val_b64Char _ (by omega)]
    dsimp only
    rw [ih hrest (fuel + 3)]
    show some _ = _
    congr 1
    have e0 : (b0 * 65536 + b1 * 256 + b2) / 262144 * 4 +
        (b0 * 65536 + b1 * 256 + b2) / 4096 % 64 / 16 = b0 := by omega
    have e1 : (b0 * 65536 + b1 * 256 + b2) / 4096 % 64 % 16 * 16 +
        (b0 * 65536 + b1 * 256 + b2) / 64 % 64 / 4 = b1 := by omega
    have e2 : (b0 * 65536 + b1 * 256 + b2) / 64 % 64 % 4 * 64 +
        (b0 * 65536 + b1 * 256 + b2) % 64 = b2 := by omega
    rw [e0, e1, e2]
  | case2 b0 b1 =>
    have h0 := hbs b0 (by simp)
    have h1 := hbs b1 (by simp)
    intro fuel
    show b64decodeGroups
      ([b64Char _, b64Char _, b64Char _, '='].length + fuel + 1)
      [b64Char _, b64Char _, b64Char _, '='] = _
    rw [show ([b64Char ((b0 * 1024 + b1 * 4) / 4096), b64Char _, b64Char _, '='].length +
        fuel + 1) = (fuel + 4) + 1 by simp only [List.length_cons, List.length_nil]; omega]
    rw [b64decodeGroups_cons,
      b64Val_b64Char _ (by omega), b64Val_b64Char _ (by omega)]
    dsimp only
    rw [if_neg (b64Char_ne_eq _ (by omega)), b64Val_b64Char _ (by omega)]
    dsimp only
    rw [if_pos rfl, if_pos rfl]
    congr 1
    have e0 : (b0 * 1024 + b1 * 4) / 4096 * 4 + (b0 * 1024 + b1 * 4) / 64 % 64 / 16 = b0 := by
      omega
    have e1 : (b0 * 1024 + b1 * 4) / 64 % 64 % 16 * 16 + (b0 * 1024 + b1 * 4) % 64 / 4 = b1 := by
      omega
    rw [e0, e1]
  | case3 b0 =>
    have h0 := hbs b0 (by simp)
    intro fuel
    show b64decodeGroups
      ([b64Char _, b64Char _, '=', '='].length + fuel + 1)
      [b64Char _, b64Char _, '=', '='] = _
    rw [show ([b64Char (b0 * 16 / 64), b64Char _, '=', '='].length + fuel + 1) =
      (fuel + 4) + 1 by simp only [List.length_cons, List.length_nil]; omega]
    rw [b64decodeGroups_cons,
      b64Val_b64Char _ (by omega), b64Val_b64Char _ (by omega)]
    dsimp only
    rw [if_pos rfl, if_pos (by decide)]
    congr 1
    have e0 : b0 * 16 / 64 * 4 + b0 * 16 % 64 / 16 = b0 := by omega
    rw [e0]
  | case4 =>
    intro fuel
    rfl

theorem b64decode_b64encodeStr (bs : Bytes) (hbs : ∀ b ∈ bs, b < 256) :
    b64decode (b64encodeStr bs) = some bs := by
  show b64decode (String.mk (b64encode bs)) = some bs
  have hfilt : (b64encode bs).filter (fun c => (b64Val c).isSome || c = '=') = b64encode bs := by
    apply List.filter_eq_self.mpr
    intro c hc
    rcases b64encode_alpha bs hbs c hc with h | h
    · simp [h]
    · simp [h]
  show (if ((b64encode bs).filter (fun c => (b64Val c).isSome || c = '=')).length % 4 = 0 then
      b64decodeGroups
        (((b64encode bs).filter (fun c => (b64Val c).isSome || c = '=')).length + 1)
        ((b64encode bs).filter (fun c => (b64Val c).isSome || c = '='))
    else none) = some bs
  rw [hfilt, if_pos (b64encode_length_mod bs),
    show (b64encode bs).length + 1 = (b64encode bs).length + 0 + 1 by omega,
    b64decodeGroups_encode bs hbs 0]


/-! ## Digest shape lemmas -/

theorem shaRound_length (st : List Nat) (kw : Nat × Nat) : (shaRound st kw).length = st.length := by
  unfold shaRound
  split <;> simp

theorem foldl_shaRound_length (l : List (Nat × Nat)) :
    ∀ st, (l.foldl shaRound st).length = st.length := by
  induction l with
  | nil => intro st; rfl
  | cons x xs ih => intro st; rw [List.foldl_cons, ih, shaRound_length]

theorem shaCompress_length (st : List Nat) (block : Bytes) :
    (shaCompress st block).length = st.length := by
  unfold shaCompress
  rw [List.length_map, List.length_zip, foldl_shaRound_length]
  exact Nat.min_self _

theorem foldl_shaCompress_length (blocks : List Bytes) :
    ∀ st, (blocks.foldl shaCompress st).length = st.length := by
  induction blocks with
  | nil => intro st; rfl
  | cons b bl ih => intro st; rw [List.foldl_cons, ih, shaCompress_length]

theorem flatMap_beBytes_length (st : List Nat) :
    (st.flatMap (beBytes 4)).length = 4 * st.length := by
  induction st with
  | nil => rfl
  | cons w ws ih =>
    rw [List.flatMap_cons, List.length_append, ih]
    show (beBytes 4 w).length + _ = _
    rw [beBytes, List.length_map, List.length_range, List.length_cons]
    omega

theorem sha256_length (msg : Bytes) : (sha256 msg).length = 32 := by
  unfold sha256
  rw [flatMap_beBytes_length, foldl_shaCompress_length]
  rfl

theorem sha256_lt (msg : Bytes) : ∀ b ∈ sha256 msg, b < 256 := by
  intro b hb
  unfold sha256 at hb
  rw [List.mem_flatMap] at hb
  obtain ⟨w, _, hb⟩ := hb
  rw [beBytes, List.mem_map] at hb
  obtain ⟨i, _, hb⟩ := hb
  omega

theorem hmacSha256_length (key msg : Bytes) : (hmacSha256 key msg).length = 32 := by
  unfold hmacSha256
  exact sha256_length _

theorem hmacSha256_lt (key msg : Bytes) : ∀ b ∈ hmacSha256 key msg, b < 256 := by
  unfold hmacSha256
  exact sha256_lt _

/-! ## Serializer round trips at the top level -/

theorem jsonLoads_dumps_false (ms : List (String × Json)) (hne : ms ≠ [])
    (hsc : ∀ m ∈ ms, rtScalar m.2) :
    jsonLoads (dumps false (.obj ms)) = some (.obj ms) := by
  show jsonLoads (String.mk (dumpVal [',', ' '] [':', ' '] (.obj ms))) = some (.obj ms)
  exact jsonLoads_dumpObj [',', ' '] [':', ' '] [' '] [' '] rfl rfl
    (by intro c hc; rw [List.mem_singleton] at hc; subst hc; decide)
    (by intro c hc; rw [List.mem_singleton] at hc; subst hc; decide) ms hne hsc

theorem jsonLoads_dumpsCompact (ms : List (String × Json)) (hne : ms ≠ [])
    (hsc : ∀ m ∈ ms, rtScalar m.2) :
    jsonLoads (dumpsCompact (.obj ms)) = some (.obj ms) := by
  show jsonLoads (String.mk (dumpVal [','] [':'] (.obj ms))) = some (.obj ms)
  exact jsonLoads_dumpObj [','] [':'] [] [] rfl rfl
    (by intro c hc; cases hc) (by intro c hc; cases hc) ms hne hsc

theorem jsonLoads_dumps_true (ms : List (String × Json))
    (hks : keySortedMembers ms = ms) (hne : sortMembers ms ≠ [])
    (hsc : ∀ m ∈ sortMembers ms, rtScalar m.2) :
    jsonLoads (dumps true (.obj ms)) = some (.obj (sortMembers ms)) := by
  show jsonLoads (String.mk (dumpVal [',', ' '] [':', ' ']
    (keySorted (.obj ms)))) = some (.obj (sortMembers ms))
  rw [keySorted, hks]
  exact jsonLoads_dumpObj [',', ' '] [':', ' '] [' '] [' '] rfl rfl
    (by intro c hc; rw [List.mem_singleton] at hc; subst hc; decide)
    (by intro c hc; rw [List.mem_singleton] at hc; subst hc; decide) (sortMembers ms) hne hsc

/-! ## Integer scalar evaluation -/

theorem asIntLike_digits (l : List Char) (hne : l ≠ []) (hdig : ∀ x ∈ l, isDig x = true) :
    asIntLike (.num (String.mk l)) = some ((digitsVal l : Nat) : Int) := by
  unfold asIntLike
  show (match l with
    | '-' :: ds => if ds ≠ [] ∧ ds.all isDig then some (-(digitsVal ds : Int)) else none
    | ds => if ds ≠ [] ∧ ds.all isDig then some ((digitsVal ds : Nat) : Int) else none) = _
  split
  · rename_i ds
    have h := hdig '-' (List.mem_cons_self _ _)
    exact absurd h (by decide)
  · rw [if_pos ⟨hne, by rw [List.all_eq_true]; exact hdig⟩]

theorem asIntLike_intNat (m : Nat) : asIntLike (Json.int (m : Int)) = some (m : Int) := by
  show asIntLike (.num (intDec (m : Int))) = some (m : Int)
  rw [intDec, if_neg (by omega), Int.natAbs_ofNat,
    asIntLike_digits (natDec m) (natDec_ne_nil m) (natDec_digits m), digitsVal_natDec]

/-! ## C10: the compact fallback envelope is never parsed as secure -/

/-- **C10**: for every data string and binding token, the compact fallback
    envelope of `generate_bound_qr` (short keys `"v"`/`"t"`/`"d"`/`"b"`, token
    truncated to 100 characters) is never recognized as secure:
    `parse_secure_qr_data` returns the legacy result with `is_secure = false`
    and the whole compact JSON string as `original_data`, so a compact-wrapped
    binding can never reach signature verification. -/
theorem C10_compact_not_secure (data binding_token : String) :
    parse_secure_qr_data (compact_secure_data data binding_token) =
      legacyParsedQR (compact_secure_data data binding_token) := by
  have hload : jsonLoads (compact_secure_data data binding_token) =
      some (.obj [("v", .str "1.0"), ("t", .str "s"), ("d", .str data),
        ("b", .str (binding_token.take 100))]) := by
    show jsonLoads (dumpsCompact (.obj _)) = _
    apply jsonLoads_dumpsCompact _ (by simp)
    intro m hm
    simp only [List.mem_cons, List.not_mem_nil, or_false] at hm
    rcases hm with hm | hm | hm | hm <;> (subst hm; exact trivial)
  have hget : Json.get [("v", Json.str "1.0"), ("t", Json.str "s"), ("d", Json.str data),
      ("b", Json.str (binding_token.take 100))] "type" = .null := rfl
  rw [parse_secure_qr_data, hload]
  dsimp only
  rw [if_neg (by rw [hget]; exact fun h => Json.noConfusion h)]

/-! ## C5: verification is total and structured -/

theorem verifyStages_ok_structured (key : Bytes) (token : String)
    (fp : List (String × Json)) (now : Nat) (r : VerifyResult)
    (h : verifyStages key token fp now = .ok r) :
    r.valid = true ∨ r.error.isSome = true := by
  unfold verifyStages at h
  simp only [bind, Except.bind, pure, Except.pure, throw, throwThe, MonadExceptOf.throw] at h
  repeat' split at h
  all_goals
    first
      | exact Except.noConfusion h
      | (injection h with h; subst h; first | (right; rfl) | (left; rfl))

/-- **C5** (amended): `verify_binding_token` never raises at all — the
    catch-all handlers turn every exception (malformed base64 and missing
    token fields included, not only bad signature / expiry / fingerprint
    mismatch) into a structured result, so every result either has
    `valid = true` or carries an error message. -/
theorem C5_verify_structured (key : Bytes) (token : String)
    (fp : List (String × Json)) (now : Nat) :
    (verify_binding_token key token fp now).valid = true ∨
      (verify_binding_token key token fp now).error.isSome = true := by
  rw [verify_binding_token]
  cases h : verifyStages key token fp now with
  | ok r =>
    exact verifyStages_ok_structured key token fp now r h
  | error e =>
    cases e with
    | jsonDecode m => right; rfl
    | other m => right; rfl

/-- **C5** counterexample: on the malformed-base64 token `"A"` the `try`
    body does raise (`binascii.Error`), but `verify_binding_token` catches it
    and returns a structured invalid result instead of raising; likewise a
    well-formed base64 token whose JSON lacks the `signature` key yields the
    structured `Missing token field` result, not an exception — refuting the
    claim that verification raises on malformed base64 or missing keys. -/
theorem C5_counterexample :
    verifyStages [] "A" [] 0 = .error (.other "Invalid base64-encoded string") ∧
    verify_binding_token [] "A" [] 0 =
      { valid := false, error := some "Verification failed: Invalid base64-encoded string" } ∧
    verify_binding_token [] "eyJwYXlsb2FkIjogIngifQ==" [] 0 =
      { valid := false, error := some "Missing token field: signature" } :=
  ⟨rfl, rfl, rfl⟩

/-! ## C3: evaluating verification on a tampered token -/

theorem verifyStages_sig_mismatch (key pb sig : Bytes)
    (hpb : ∀ b ∈ pb, b < 256) (hsig : ∀ b ∈ sig, b < 256)
    (hne : sig ≠ hmacSha256 key pb)
    (fp : List (String × Json)) (now : Nat) :
    verifyStages key (encodeToken pb sig) fp now =
      .ok { valid := false, error := some "Invalid token signature" } := by
  have htok : encodeToken pb sig = b64encodeStr (utf8Encode (dumps false (.obj
      [("payload", .str (b64encodeStr pb)),
       ("signature", .str (b64encodeStr sig)),
       ("version", .str "2.0")]))) := rfl
  unfold verifyStages
  simp only [bind, Except.bind, pure, Except.pure, throw, throwThe, MonadExceptOf.throw]
  rw [htok]
  rw [show ((b64encodeStr (utf8Encode (dumps false (.obj
      [("payload", .str (b64encodeStr pb)),
       ("signature", .str (b64encodeStr sig)),
       ("version", .str "2.0")])))).data.all fun c => decide (c.toNat < 128)) = true from
    List.all_eq_true.mpr (fun c hc => decide_eq_true
      (b64encode_ascii _ (utf8Encode_lt _) c hc))]
  rw [if_neg (fun hh => hh rfl)]
  rw [b64decode_b64encodeStr _ (utf8Encode_lt _)]
  dsimp only
  rw [utf8Decode_utf8Encode]
  dsimp only
  rw [jsonLoads_dumps_false
    [("payload", .str (b64encodeStr pb)), ("signature", .str (b64encodeStr sig)),
     ("version", .str "2.0")] (by simp)
    (by
      intro m hm
      simp only [List.mem_cons, List.not_mem_nil, or_false] at hm
      rcases hm with hm | hm | hm <;> (subst hm; exact trivial))]
  dsimp only
  rw [show pyContains (Json.obj
      [("payload", Json.str (b64encodeStr pb)), ("signature", Json.str (b64encodeStr sig)),
       ("version", Json.str "2.0")]) "payload" = Except.ok true from rfl]
  dsimp only
  rw [if_neg (fun hh => hh rfl)]
  rw [show pyContains (Json.obj
      [("payload", Json.str (b64encodeStr pb)), ("signature", Json.str (b64encodeStr sig)),
       ("version", Json.str "2.0")]) "signature" = Except.ok true from rfl]
  dsimp only
  rw [if_neg (fun hh => hh rfl)]
  rw [show pyContains (Json.obj
      [("payload", Json.str (b64encodeStr pb)), ("signature", Json.str (b64encodeStr sig)),
       ("version", Json.str "2.0")]) "version" = Except.ok true from rfl]
  dsimp only
  rw [if_neg (fun hh => hh rfl)]
  rw [show Json.get
      [("payload", Json.str (b64encodeStr pb)), ("signature", Json.str (b64encodeStr sig)),
       ("version", Json.str "2.0")] "payload" = Json.str (b64encodeStr pb) from rfl]
  dsimp only
  rw [show Json.get
      [("payload", Json.str (b64encodeStr pb)), ("signature", Json.str (b64encodeStr sig)),
       ("version", Json.str "2.0")] "signature" = Json.str (b64encodeStr sig) from rfl]
  dsimp only
  rw [show ((b64encodeStr pb).data.all fun c => decide (c.toNat < 128)) = true from
    List.all_eq_true.mpr (fun c hc => decide_eq_true (b64encode_ascii pb hpb c hc))]
  rw [if_neg (fun hh => hh rfl)]
  rw [show ((b64encodeStr sig).data.all fun c => decide (c.toNat < 128)) = true from
    List.all_eq_true.mpr (fun c hc => decide_eq_true (b64encode_ascii sig hsig c hc))]
  rw [if_neg (fun hh => hh rfl)]
  rw [b64decode_b64encodeStr pb hpb]
  dsimp only
  rw [b64decode_b64encodeStr sig hsig]
  dsimp only
  rw [if_pos hne]

/-- Flip bit `i` of a byte sequence (bit `i % 8` of byte `i / 8`): the model
    of a single-bit tamper to the stored signature. -/
def flipBit (i : Nat) (bs : Bytes) : Bytes :=
  bs.set (i / 8) (bs.getD (i / 8) 0 ^^^ 1 <<< (i % 8))

theorem flipBit_lt (i : Nat) (bs : Bytes) (hbs : ∀ b ∈ bs, b < 256) :
    ∀ b ∈ flipBit i bs, b < 256 := by
  intro b hb
  rcases List.mem_or_eq_of_mem_set hb with h | h
  · exact hbs b h
  · subst h
    have hm : 1 <<< (i % 8) < 256 := by
      rw [Nat.shiftLeft_eq, one_mul]
      calc 2 ^ (i % 8) ≤ 2 ^ 7 := Nat.pow_le_pow_right (by omega) (by omega)
        _ < 256 := by norm_num
    have hg : bs.getD (i / 8) 0 < 256 := by
      by_cases hk : i / 8 < bs.length
      · rw [List.getD_eq_getElem bs 0 hk]
        exact hbs _ (List.getElem_mem hk)
      · rw [List.getD_eq_default bs 0 (by omega)]
        omega
    have hg' : bs.getD (i / 8) 0 < 2 ^ 8 := hg
    have hm' : 1 <<< (i % 8) < 2 ^ 8 := hm
    have hx := @Nat.xor_lt_two_pow (bs.getD (i / 8) 0) (1 <<< (i % 8)) 8 hg' hm'
    exact hx

theorem flipBit_ne (i : Nat) (bs : Bytes) (hlen : i < 8 * bs.length) :
    flipBit i bs ≠ bs := by
  intro h
  have hk : i / 8 < bs.length := by omega
  have h2 := congrArg (fun l => List.getD l (i / 8) 0) h
  simp only [flipBit] at h2
  rw [List.getD_eq_getElem _ 0 (by rw [List.length_set]; exact hk),
    List.getElem_set_self, List.getD_eq_getElem bs 0 hk] at h2
  have h3 := congrArg (fun x => bs[i / 8] ^^^ x) h2.symm
  simp only at h3
  rw [← Nat.xor_assoc, Nat.xor_self, Nat.zero_xor] at h3
  have : (0 : Nat) < 1 <<< (i % 8) := by
    rw [Nat.shiftLeft_eq, one_mul]
    exact Nat.pos_pow_of_pos _ (by omega)
  omega

/-- **C3**: every token issued by `generate_binding_token` is
    `encodeToken payload_bytes (hmac key payload_bytes)`, and flipping any
    single bit `i` of the stored signature makes `verify_binding_token`
    return the structured invalid-signature result — never `valid = true` —
    for every fingerprint and verification time. -/
theorem C3_signature_flip (key : Bytes) (fp : List (String × Json)) (qr : String)
    (hrs now : Nat) (pm : List (String × Json))
    (hpm : binding_payload fp qr hrs now = some pm)
    (i : Nat) (hi : i < 256) (fp' : List (String × Json)) (now' : Nat) :
    generate_binding_token key fp qr hrs now =
      .ok (encodeToken (payloadBytes pm) (hmacSha256 key (payloadBytes pm))) ∧
    verify_binding_token key
      (encodeToken (payloadBytes pm) (flipBit i (hmacSha256 key (payloadBytes pm))))
      fp' now' =
      { valid := false, error := some "Invalid token signature" } := by
  constructor
  · rw [generate_binding_token, hpm]
  · have hlen : i < 8 * (hmacSha256 key (payloadBytes pm)).length := by
      rw [hmacSha256_length]; omega
    rw [verify_binding_token,
      verifyStages_sig_mismatch key (payloadBytes pm) _
        (utf8Encode_lt _)
        (flipBit_lt i _ (hmacSha256_lt _ _))
        (flipBit_ne i _ hlen) fp' now']

/-- Witness for C3 at a concrete fingerprint, payload and bit position. -/
theorem C3_signature_flip_witness :
    binding_payload [("document_id", Json.str "d"), ("fingerprint_hash", Json.str "h")]
        "q" 1 0 = some
        [("document_id", Json.str "d"), ("fingerprint_hash", Json.str "h"),
         ("qr_data", Json.str "q"), ("issued_at", Json.int 0),
         ("expires_at", Json.int 3600), ("version", Json.str "2.0")] ∧
      (0 : Nat) < 256 ∧
      (generate_binding_token [1, 2]
          [("document_id", Json.str "d"), ("fingerprint_hash", Json.str "h")] "q" 1 0 =
        .ok (encodeToken (payloadBytes
          [("document_id", Json.str "d"), ("fingerprint_hash", Json.str "h"),
           ("qr_data", Json.str "q"), ("issued_at", Json.int 0),
           ("expires_at", Json.int 3600), ("version", Json.str "2.0")])
          (hmacSha256 [1, 2] (payloadBytes
          [("document_id", Json.str "d"), ("fingerprint_hash", Json.str "h"),
           ("qr_data", Json.str "q"), ("issued_at", Json.int 0),
           ("expires_at", Json.int 3600), ("version", Json.str "2.0")]))) ∧
      verify_binding_token [1, 2]
        (encodeToken (payloadBytes
          [("document_id", Json.str "d"), ("fingerprint_hash", Json.str "h"),
           ("qr_data", Json.str "q"), ("issued_at", Json.int 0),
           ("expires_at", Json.int 3600), ("version", Json.str "2.0")])
          (flipBit 0 (hmacSha256 [1, 2] (payloadBytes
          [("document_id", Json.str "d"), ("fingerprint_hash", Json.str "h"),
           ("qr_data", Json.str "q"), ("issued_at", Json.int 0),
           ("expires_at", Json.int 3600), ("version", Json.str "2.0")]))))
        [] 5 =
        { valid := false, error := some "Invalid token signature" }) :=
  ⟨rfl, by decide,
    C3_signature_flip [1, 2]
      [("document_id", Json.str "d"), ("fingerprint_hash", Json.str "h")] "q" 1 0
      [("document_id", Json.str "d"), ("fingerprint_hash", Json.str "h"),
       ("qr_data", Json.str "q"), ("issued_at", Json.int 0),
       ("expires_at", Json.int 3600), ("version", Json.str "2.0")]
      rfl 0 (by decide) [] 5⟩

/-! ## C4: evaluating verification on a genuine token -/

theorem rtScalar_intNat (m : Nat) : rtScalar (Json.int (m : Int)) :=
  ⟨m, by rw [intDec, if_neg (by omega), Int.natAbs_ofNat]⟩

theorem verifyStages_genuine (key : Bytes) (fp : List (String × Json)) (qr : String)
    (hrs now : Nat) (did fh : String)
    (hdid : Json.lookup fp "document_id" = some (.str did))
    (hfh : Json.lookup fp "fingerprint_hash" = some (.str fh))
    (now' : Nat) :
    verifyStages key
      (encodeToken
        (payloadBytes
          [("document_id", Json.str did), ("fingerprint_hash", Json.str fh),
           ("qr_data", Json.str qr), ("issued_at", Json.int (now : Int)),
           ("expires_at", Json.int ((now + hrs * 3600 : Nat) : Int)),
           ("version", Json.str "2.0")])
        (hmacSha256 key (payloadBytes
          [("document_id", Json.str did), ("fingerprint_hash", Json.str fh),
           ("qr_data", Json.str qr), ("issued_at", Json.int (now : Int)),
           ("expires_at", Json.int ((now + hrs * 3600 : Nat) : Int)),
           ("version", Json.str "2.0")])))
      fp now' =
      (if ((now' : Int) > ((now + hrs * 3600 : Nat) : Int)) then
        .ok { valid := false, error := some "Token expired" }
       else
        .ok { valid := true,
              qr_data := some (Json.str qr),
              issued_at := some (Json.int (now : Int)),
              expires_at := some (Json.int ((now + hrs * 3600 : Nat) : Int)),
              document_id := some (Json.str did),
              document_uuid := some (Json.str did),
              verification_time := some now' }) := by
  have hpb : ∀ b ∈ payloadBytes
      [("document_id", Json.str did), ("fingerprint_hash", Json.str fh),
       ("qr_data", Json.str qr), ("issued_at", Json.int (now : Int)),
       ("expires_at", Json.int ((now + hrs * 3600 : Nat) : Int)),
       ("version", Json.str "2.0")], b < 256 := utf8Encode_lt _
  have hsig : ∀ b ∈ hmacSha256 key (payloadBytes
      [("document_id", Json.str did), ("fingerprint_hash", Json.str fh),
       ("qr_data", Json.str qr), ("issued_at", Json.int (now : Int)),
       ("expires_at", Json.int ((now + hrs * 3600 : Nat) : Int)),
       ("version", Json.str "2.0")]), b < 256 := hmacSha256_lt _ _
  unfold verifyStages
  simp only [bind, Except.bind, pure, Except.pure, throw, throwThe, MonadExceptOf.throw]
  rw [show encodeToken
      (payloadBytes
        [("document_id", Json.str did), ("fingerprint_hash", Json.str fh),
         ("qr_data", Json.str qr), ("issued_at", Json.int (now : Int)),
         ("expires_at", Json.int ((now + hrs * 3600 : Nat) : Int)),
         ("version", Json.str "2.0")])
      (hmacSha256 key (payloadBytes
        [("document_id", Json.str did), ("fingerprint_hash", Json.str fh),
         ("qr_data", Json.str qr), ("issued_at", Json.int (now : Int)),
         ("expires_at", Json.int ((now + hrs * 3600 : Nat) : Int)),
         ("version", Json.str "2.0")])) =
    b64encodeStr (utf8Encode (dumps false (.obj
      [("payload", .str (b64encodeStr (payloadBytes
        [("document_id", Json.str did), ("fingerprint_hash", Json.str fh),
         ("qr_data", Json.str qr), ("issued_at", Json.int (now : Int)),
         ("expires_at", Json.int ((now + hrs * 3600 : Nat) : Int)),
         ("version", Json.str "2.0")]))),
       ("signature", .str (b64encodeStr (hmacSha256 key (payloadBytes
        [("document_id", Json.str did), ("fingerprint_hash", Json.str fh),
         ("qr_data", Json.str qr), ("issued_at", Json.int (now : Int)),
         ("expires_at", Json.int ((now + hrs * 3600 : Nat) : Int)),
         ("version", Json.str "2.0")])))),
       ("version", .str "2.0")]))) from rfl]
  rw [show ((b64encodeStr (utf8Encode (dumps false (.obj
      [("payload", .str (b64encodeStr (payloadBytes
        [("document_id", Json.str did), ("fingerprint_hash", Json.str fh),
         ("qr_data", Json.str qr), ("issued_at", Json.int (now : Int)),
         ("expires_at", Json.int ((now + hrs * 3600 : Nat) : Int)),
         ("version", Json.str "2.0")]))),
       ("signature", .str (b64encodeStr (hmacSha256 key (payloadBytes
        [("document_id", Json.str did), ("fingerprint_hash", Json.str fh),
         ("qr_data", Json.str qr), ("issued_at", Json.int (now : Int)),
         ("expires_at", Json.int ((now + hrs * 3600 : Nat) : Int)),
         ("version", Json.str "2.0")])))),
       ("version", .str "2.0")])))).data.all fun c => decide (c.toNat < 128)) = true from
    List.all_eq_true.mpr (fun c hc => decide_eq_true
      (b64encode_ascii _ (utf8Encode_lt _) c hc))]
  rw [if_neg (fun hh => hh rfl)]
  rw [b64decode_b64encodeStr _ (utf8Encode_lt _)]
  dsimp only
  rw [utf8Decode_utf8Encode]
  dsimp only
  rw [jsonLoads_dumps_false _ (by simp)
    (by
      intro m hm
      simp only [List.mem_cons, List.not_mem_nil, or_false] at hm
      rcases hm with hm | hm | hm <;> (subst hm; exact trivial))]
  dsimp only
  rw [show pyContains (Json.obj
      [("payload", Json.str (b64encodeStr (payloadBytes
        [("document_id", Json.str did), ("fingerprint_hash", Json.str fh),
         ("qr_data", Json.str qr), ("issued_at", Json.int (now : Int)),
         ("expires_at", Json.int ((now + hrs * 3600 : Nat) : Int)),
         ("version", Json.str "2.0")]))),
       ("signature", Json.str (b64encodeStr (hmacSha256 key (payloadBytes
        [("document_id", Json.str did), ("fingerprint_hash", Json.str fh),
         ("qr_data", Json.str qr), ("issued_at", Json.int (now : Int)),
         ("expires_at", Json.int ((now + hrs * 3600 : Nat) : Int)),
         ("version", Json.str "2.0")])))),
       ("version", Json.str "2.0")]) "payload" = Except.ok true from rfl]
  dsimp only
  rw [if_neg (fun hh => hh rfl)]
  rw [show pyContains (Json.obj
      [("payload", Json.str (b64encodeStr (payloadBytes
        [("document_id", Json.str did), ("fingerprint_hash", Json.str fh),
         ("qr_data", Json.str qr), ("issued_at", Json.int (now : Int)),
         ("expires_at", Json.int ((now + hrs * 3600 : Nat) : Int)),
         ("version", Json.str "2.0")]))),
       ("signature", Json.str (b64encodeStr (hmacSha256 key (payloadBytes
        [("document_id", Json.str did), ("fingerprint_hash", Json.str fh),
         ("qr_data", Json.str qr), ("issued_at", Json.int (now : Int)),
         ("expires_at", Json.int ((now + hrs * 3600 : Nat) : Int)),
         ("version", Json.str "2.0")])))),
       ("version", Json.str "2.0")]) "signature" = Except.ok true from rfl]
  dsimp only
  rw [if_neg (fun hh => hh rfl)]
  rw [show pyContains (Json.obj
      [("payload", Json.str (b64encodeStr (payloadBytes
        [("document_id", Json.str did), ("fingerprint_hash", Json.str fh),
         ("qr_data", Json.str qr), ("issued_at", Json.int (now : Int)),
         ("expires_at", Json.int ((now + hrs * 3600 : Nat) : Int)),
         ("version", Json.str "2.0")]))),
       ("signature", Json.str (b64encodeStr (hmacSha256 key (payloadBytes
        [("document_id", Json.str did), ("fingerprint_hash", Json.str fh),
         ("qr_data", Json.str qr), ("issued_at", Json.int (now : Int)),
         ("expires_at", Json.int ((now + hrs * 3600 : Nat) : Int)),
         ("version", Json.str "2.0")])))),
       ("version", Json.str "2.0")]) "version" = Except.ok true from rfl]
  dsimp only
  rw [if_neg (fun hh => hh rfl)]
  rw [show Json.get
      [("payload", Json.str (b64encodeStr (payloadBytes
        [("document_id", Json.str did), ("fingerprint_hash", Json.str fh),
         ("qr_data", Json.str qr), ("issued_at", Json.int (now : Int)),
         ("expires_at", Json.int ((now + hrs * 3600 : Nat) : Int)),
         ("version", Json.str "2.0")]))),
       ("signature", Json.str (b64encodeStr (hmacSha256 key (payloadBytes
        [("document_id", Json.str did), ("fingerprint_hash", Json.str fh),
         ("qr_data", Json.str qr), ("issued_at", Json.int (now : Int)),
         ("expires_at", Json.int ((now + hrs * 3600 : Nat) : Int)),
         ("version", Json.str "2.0")])))),
       ("version", Json.str "2.0")] "payload" = Json.str (b64encodeStr (payloadBytes
        [("document_id", Json.str did), ("fingerprint_hash", Json.str fh),
         ("qr_data", Json.str qr), ("issued_at", Json.int (now : Int)),
         ("expires_at", Json.int ((now + hrs * 3600 : Nat) : Int)),
         ("version", Json.str "2.0")])) from rfl]
  dsimp only
  rw [show Json.get
      [("payload", Json.str (b64encodeStr (payloadBytes
        [("document_id", Json.str did), ("fingerprint_hash", Json.str fh),
         ("qr_data", Json.str qr), ("issued_at", Json.int (now : Int)),
         ("expires_at", Json.int ((now + hrs * 3600 : Nat) : Int)),
         ("version", Json.str "2.0")]))),
       ("signature", Json.str (b64encodeStr (hmacSha256 key (payloadBytes
        [("document_id", Json.str did), ("fingerprint_hash", Json.str fh),
         ("qr_data", Json.str qr), ("issued_at", Json.int (now : Int)),
         ("expires_at", Json.int ((now + hrs * 3600 : Nat) : Int)),
         ("version", Json.str "2.0")])))),
       ("version", Json.str "2.0")] "signature" = Json.str (b64encodeStr (hmacSha256 key
        (payloadBytes
        [("document_id", Json.str did), ("fingerprint_hash", Json.str fh),
         ("qr_data", Json.str qr), ("issued_at", Json.int (now : Int)),
         ("expires_at", Json.int ((now + hrs * 3600 : Nat) : Int)),
         ("version", Json.str "2.0")]))) from rfl]
  dsimp only
  rw [show ((b64encodeStr (payloadBytes
      [("document_id", Json.str did), ("fingerprint_hash", Json.str fh),
       ("qr_data", Json.str qr), ("issued_at", Json.int (now : Int)),
       ("expires_at", Json.int ((now + hrs * 3600 : Nat) : Int)),
       ("version", Json.str "2.0")])).data.all fun c => decide (c.toNat < 128)) = true from
    List.all_eq_true.mpr (fun c hc => decide_eq_true (b64encode_ascii _ hpb c hc))]
  rw [if_neg (fun hh => hh rfl)]
  rw [show ((b64encodeStr (hmacSha256 key (payloadBytes
      [("document_id", Json.str did), ("fingerprint_hash", Json.str fh),
       ("qr_data", Json.str qr), ("issued_at", Json.int (now : Int)),
       ("expires_at", Json.int ((now + hrs * 3600 : Nat) : Int)),
       ("version", Json.str "2.0")]))).data.all fun c => decide (c.toNat < 128)) = true from
    List.all_eq_true.mpr (fun c hc => decide_eq_true (b64encode_ascii _ hsig c hc))]
  rw [if_neg (fun hh => hh rfl)]
  rw [b64decode_b64encodeStr _ hpb]
  dsimp only
  rw [b64decode_b64encodeStr _ hsig]
  dsimp only
  rw [if_neg (fun hh => hh rfl)]
  rw [show payloadBytes
      [("document_id", Json.str did), ("fingerprint_hash", Json.str fh),
       ("qr_data", Json.str qr), ("issued_at", Json.int (now : Int)),
       ("expires_at", Json.int ((now + hrs * 3600 : Nat) : Int)),
       ("version", Json.str "2.0")] =
    utf8Encode (dumps true (.obj
      [("document_id", Json.str did), ("fingerprint_hash", Json.str fh),
       ("qr_data", Json.str qr), ("issued_at", Json.int (now : Int)),
       ("expires_at", Json.int ((now + hrs * 3600 : Nat) : Int)),
       ("version", Json.str "2.0")])) from rfl]
  rw [utf8Decode_utf8Encode]
  dsimp only
  rw [jsonLoads_dumps_true _ rfl
    (by
      rw [show sortMembers
        [("document_id", Json.str did), ("fingerprint_hash", Json.str fh),
         ("qr_data", Json.str qr), ("issued_at", Json.int (now : Int)),
         ("expires_at", Json.int ((now + hrs * 3600 : Nat) : Int)),
         ("version", Json.str "2.0")] =
        [("document_id", Json.str did),
         ("expires_at", Json.int ((now + hrs * 3600 : Nat) : Int)),
         ("fingerprint_hash", Json.str fh), ("issued_at", Json.int (now : Int)),
         ("qr_data", Json.str qr), ("version", Json.str "2.0")] from rfl]
      simp)
    (by
      rw [show sortMembers
        [("document_id", Json.str did), ("fingerprint_hash", Json.str fh),
         ("qr_data", Json.str qr), ("issued_at", Json.int (now : Int)),
         ("expires_at", Json.int ((now + hrs * 3600 : Nat) : Int)),
         ("version", Json.str "2.0")] =
        [("document_id", Json.str did),
         ("expires_at", Json.int ((now + hrs * 3600 : Nat) : Int)),
         ("fingerprint_hash", Json.str fh), ("issued_at", Json.int (now : Int)),
         ("qr_data", Json.str qr), ("version", Json.str "2.0")] from rfl]
      intro m hm
      simp only [List.mem_cons, List.not_mem_nil, or_false] at hm
      rcases hm with hm | hm | hm | hm | hm | hm <;> subst hm
      · exact trivial
      · exact rtScalar_intNat (now + hrs * 3600)
      · exact trivial
      · exact rtScalar_intNat now
      · exact trivial
      · exact trivial)]
  dsimp only
  rw [show sortMembers
      [("document_id", Json.str did), ("fingerprint_hash", Json.str fh),
       ("qr_data", Json.str qr), ("issued_at", Json.int (now : Int)),
       ("expires_at", Json.int ((now + hrs * 3600 : Nat) : Int)),
       ("version", Json.str "2.0")] =
      [("document_id", Json.str did),
       ("expires_at", Json.int ((now + hrs * 3600 : Nat) : Int)),
       ("fingerprint_hash", Json.str fh), ("issued_at", Json.int (now : Int)),
       ("qr_data", Json.str qr), ("version", Json.str "2.0")] from rfl]
  rw [show Json.lookup
      [("document_id", Json.str did),
       ("expires_at", Json.int ((now + hrs * 3600 : Nat) : Int)),
       ("fingerprint_hash", Json.str fh), ("issued_at", Json.int (now : Int)),
       ("qr_data", Json.str qr), ("version", Json.str "2.0")] "expires_at" =
      some (Json.int ((now + hrs * 3600 : Nat) : Int)) from rfl]
  dsimp only [Option.getD]
  rw [asIntLike_intNat (now + hrs * 3600)]
  dsimp only
  by_cases ht : ((now' : Int) > ((now + hrs * 3600 : Nat) : Int))
  · rw [if_pos ht, if_pos ht]
  · rw [if_neg ht, if_neg ht]
    rw [if_neg (fun hh => hh (by
      rw [show Json.get
        [("document_id", Json.str did),
         ("expires_at", Json.int ((now + hrs * 3600 : Nat) : Int)),
         ("fingerprint_hash", Json.str fh), ("issued_at", Json.int (now : Int)),
         ("qr_data", Json.str qr), ("version", Json.str "2.0")] "fingerprint_hash" =
        Json.str fh from rfl, Json.get, hfh]
      rfl))]
    rw [show Json.get fp "document_id" = Json.str did from by rw [Json.get, hdid]; rfl]
    rfl

/-- **C4**: a token issued by `generate_binding_token` carries
    `expires_at = issued_at + h*3600` in its payload; verification against the
    same fingerprint returns `valid = true` with the original `qr_data` at any
    time up to `expires_at`, and the structured `Token expired` result once
    that time has passed. -/
theorem C4_token_expiry (key : Bytes) (fp : List (String × Json)) (qr : String)
    (hrs now : Nat) (did fh : String)
    (hdid : Json.lookup fp "document_id" = some (.str did))
    (hfh : Json.lookup fp "fingerprint_hash" = some (.str fh))
    (now₁ now₂ : Nat) (h₁ : now₁ ≤ now + hrs * 3600) (h₂ : now + hrs * 3600 < now₂) :
    binding_payload fp qr hrs now = some
      [("document_id", Json.str did), ("fingerprint_hash", Json.str fh),
       ("qr_data", Json.str qr), ("issued_at", Json.int (now : Int)),
       ("expires_at", Json.int ((now + hrs * 3600 : Nat) : Int)),
       ("version", Json.str "2.0")] ∧
    generate_binding_token key fp qr hrs now = .ok
      (encodeToken
        (payloadBytes
          [("document_id", Json.str did), ("fingerprint_hash", Json.str fh),
           ("qr_data", Json.str qr), ("issued_at", Json.int (now : Int)),
           ("expires_at", Json.int ((now + hrs * 3600 : Nat) : Int)),
           ("version", Json.str "2.0")])
        (hmacSha256 key (payloadBytes
          [("document_id", Json.str did), ("fingerprint_hash", Json.str fh),
           ("qr_data", Json.str qr), ("issued_at", Json.int (now : Int)),
           ("expires_at", Json.int ((now + hrs * 3600 : Nat) : Int)),
           ("version", Json.str "2.0")]))) ∧
    verify_binding_token key
      (encodeToken
        (payloadBytes
          [("document_id", Json.str did), ("fingerprint_hash", Json.str fh),
           ("qr_data", Json.str qr), ("issued_at", Json.int (now : Int)),
           ("expires_at", Json.int ((now + hrs * 3600 : Nat) : Int)),
           ("version", Json.str "2.0")])
        (hmacSha256 key (payloadBytes
          [("document_id", Json.str did), ("fingerprint_hash", Json.str fh),
           ("qr_data", Json.str qr), ("issued_at", Json.int (now : Int)),
           ("expires_at", Json.int ((now + hrs * 3600 : Nat) : Int)),
           ("version", Json.str "2.0")]))) fp now₁ =
      { valid := true, qr_data := some (Json.str qr),
        issued_at := some (Json.int (now : Int)),
        expires_at := some (Json.int ((now + hrs * 3600 : Nat) : Int)),
        document_id := some (Json.str did), document_uuid := some (Json.str did),
        verification_time := some now₁ } ∧
    verify_binding_token key
      (encodeToken
        (payloadBytes
          [("document_id", Json.str did), ("fingerprint_hash", Json.str fh),
           ("qr_data", Json.str qr), ("issued_at", Json.int (now : Int)),
           ("expires_at", Json.int ((now + hrs * 3600 : Nat) : Int)),
           ("version", Json.str "2.0")])
        (hmacSha256 key (payloadBytes
          [("document_id", Json.str did), ("fingerprint_hash", Json.str fh),
           ("qr_data", Json.str qr), ("issued_at", Json.int (now : Int)),
           ("expires_at", Json.int ((now + hrs * 3600 : Nat) : Int)),
           ("version", Json.str "2.0")]))) fp now₂ =
      { valid := false, error := some "Token expired" } := by
  have hbp : binding_payload fp qr hrs now = some
      [("document_id", Json.str did), ("fingerprint_hash", Json.str fh),
       ("qr_data", Json.str qr), ("issued_at", Json.int (now : Int)),
       ("expires_at", Json.int ((now + hrs * 3600 : Nat) : Int)),
       ("version", Json.str "2.0")] := by
    rw [binding_payload, hdid, hfh]
    rfl
  refine ⟨hbp, ?_, ?_, ?_⟩
  · rw [generate_binding_token, hbp]
  · rw [verify_binding_token,
      verifyStages_genuine key fp qr hrs now did fh hdid hfh now₁,
      if_neg (by omega)]
  · rw [verify_binding_token,
      verifyStages_genuine key fp qr hrs now did fh hdid hfh now₂,
      if_pos (by omega)]

/-- Witness for C4 at a concrete key, fingerprint, payload and times. -/
theorem C4_token_expiry_witness :
    Json.lookup [("document_id", Json.str "D"), ("fingerprint_hash", Json.str "F")]
      "document_id" = some (.str "D") ∧
    Json.lookup [("document_id", Json.str "D"), ("fingerprint_hash", Json.str "F")]
      "fingerprint_hash" = some (.str "F") ∧
    (10 : Nat) ≤ 7 + 1 * 3600 ∧ 7 + 1 * 3600 < 3608 ∧
    (binding_payload [("document_id", Json.str "D"), ("fingerprint_hash", Json.str "F")]
      "Q" 1 7 = some
      [("document_id", Json.str "D"), ("fingerprint_hash", Json.str "F"),
       ("qr_data", Json.str "Q"), ("issued_at", Json.int ((7 : Nat) : Int)),
       ("expires_at", Json.int ((7 + 1 * 3600 : Nat) : Int)),
       ("version", Json.str "2.0")] ∧
    generate_binding_token [9]
      [("document_id", Json.str "D"), ("fingerprint_hash", Json.str "F")] "Q" 1 7 = .ok
      (encodeToken
        (payloadBytes
          [("document_id", Json.str "D"), ("fingerprint_hash", Json.str "F"),
           ("qr_data", Json.str "Q"), ("issued_at", Json.int ((7 : Nat) : Int)),
           ("expires_at", Json.int ((7 + 1 * 3600 : Nat) : Int)),
           ("version", Json.str "2.0")])
        (hmacSha256 [9] (payloadBytes
          [("document_id", Json.str "D"), ("fingerprint_hash", Json.str "F"),
           ("qr_data", Json.str "Q"), ("issued_at", Json.int ((7 : Nat) : Int)),
           ("expires_at", Json.int ((7 + 1 * 3600 : Nat) : Int)),
           ("version", Json.str "2.0")]))) ∧
    verify_binding_token [9]
      (encodeToken
        (payloadBytes
          [("document_id", Json.str "D"), ("fingerprint_hash", Json.str "F"),
           ("qr_data", Json.str "Q"), ("issued_at", Json.int ((7 : Nat) : Int)),
           ("expires_at", Json.int ((7 + 1 * 3600 : Nat) : Int)),
           ("version", Json.str "2.0")])
        (hmacSha256 [9] (payloadBytes
          [("document_id", Json.str "D"), ("fingerprint_hash", Json.str "F"),
           ("qr_data", Json.str "Q"), ("issued_at", Json.int ((7 : Nat) : Int)),
           ("expires_at", Json.int ((7 + 1 * 3600 : Nat) : Int)),
           ("version", Json.str "2.0")])))
      [("document_id", Json.str "D"), ("fingerprint_hash", Json.str "F")] 10 =
      { valid := true, qr_data := some (Json.str "Q"),
        issued_at := some (Json.int ((7 : Nat) : Int)),
        expires_at := some (Json.int ((7 + 1 * 3600 : Nat) : Int)),
        document_id := some (Json.str "D"), document_uuid := some (Json.str "D"),
        verification_time := some 10 } ∧
    verify_binding_token [9]
      (encodeToken
        (payloadBytes
          [("document_id", Json.str "D"), ("fingerprint_hash", Json.str "F"),
           ("qr_data", Json.str "Q"), ("issued_at", Json.int ((7 : Nat) : Int)),
           ("expires_at", Json.int ((7 + 1 * 3600 : Nat) : Int)),
           ("version", Json.str "2.0")])
        (hmacSha256 [9] (payloadBytes
          [("document_id", Json.str "D"), ("fingerprint_hash", Json.str "F"),
           ("qr_data", Json.str "Q"), ("issued_at", Json.int ((7 : Nat) : Int)),
           ("expires_at", Json.int ((7 + 1 * 3600 : Nat) : Int)),
           ("version", Json.str "2.0")])))
      [("document_id", Json.str "D"), ("fingerprint_hash", Json.str "F")] 3608 =
      { valid := false, error := some "Token expired" }) :=
  ⟨rfl, rfl, by decide, by decide,
    C4_token_expiry [9]
      [("document_id", Json.str "D"), ("fingerprint_hash", Json.str "F")]
      "Q" 1 7 "D" "F" rfl rfl 10 3608 (by decide) (by decide)⟩

end StegoSpec
